import Mathlib

set_option maxHeartbeats 1000000

/- A verification development for the brains interpreter (src/brains4.c).

   The runtime state model, the quantum evaluator dispatch loop, thread and
   process creation, the semaphore sleep/wake mechanism, and the recursive
   compiler are embedded shallowly.  Machine characters (C `char` cells) are
   modelled as naturals below 256 with explicit modular arithmetic;
   instruction words are naturals `opcode + immediate * 256` (opcode is the
   source character code, immediates emitted by the compiler are
   non-negative).  Pointers to data segments are modelled as segment
   identifiers: identifier 0 is the system segment `Gsmem`, and the private
   segment of a process shares the process identifier.  The scheduling queue
   `ready` models the thread-fair `tList`; the process-fair discipline only
   changes where a scheduled thread is queued, which none of the verified
   claims depend on. -/

def DMEM : Nat := 65536
def STACKSIZE : Nat := 1024
def NUMPROC : Nat := 62

/-- Addition on an 8-bit cell with modular wrap (C `char` arithmetic). -/
def cellAdd (c n : Nat) : Nat := (c + n) % 256

/-- Subtraction on an 8-bit cell with modular wrap (C `char` arithmetic):
for `c < 256` this equals the mathematical `(c - n) mod 256`. -/
def cellSub (c n : Nat) : Nat := (c + (256 - n % 256)) % 256

/-- Data pointer increment, masked by `DMASK` as in `(dp + n) & DMASK`. -/
def dpAdd (d n : Nat) : Nat := (d + n) % DMEM

/-- Data pointer decrement, masked by `DMASK` as in `(dp - n) & DMASK`
on two's-complement ints, i.e. the mathematical `(d - n) mod DMEM`. -/
def dpSub (d n : Nat) : Nat := (d + (DMEM - n % DMEM)) % DMEM

/-- The store maps a segment identifier and a cell index to a cell value.
Segment 0 is the system memory `Gsmem`. -/
abbrev Store := Nat → Nat → Nat

/-- Write one cell of one segment. -/
def writeCell (st : Store) (s i v : Nat) : Store :=
  fun s2 i2 => if s2 = s ∧ i2 = i then v else st s2 i2

/-- Copy a whole segment (the `memcpy(c->dmem, copymem, DMEM)` of
`createProcess`). -/
def segCopy (st : Store) (dst src : Nat) : Store :=
  fun s2 i2 => if s2 = dst then st src i2 else st s2 i2

/-- Process Control Block: `pmem` is the parent data segment (`NULL`
modelled as `none`), `dmem` the own data segment, `threads` the number of
live threads. -/
structure PCB where
  pid : Nat
  pmem : Option Nat
  dmem : Nat
  threads : Nat

/-- Thread Control Block: owning process, procedure table, program counter
(an index into the global instruction memory), data pointer, current memory
segment, call stack and stack pointer. -/
structure TCB where
  tid : Nat
  par : Nat
  procs : Nat → Option Nat
  pc : Nat
  dp : Nat
  cmem : Nat
  stack : Nat → Nat
  sp : Nat

/-- The global runtime state: the store of all data segments, the process
list `pList`, the dead process list `dpList`, the runnable queue, the sleep
list `sList`, the evaluator input and output streams, and the id supplies. -/
structure Machine where
  store : Store
  pList : List PCB
  dpList : List PCB
  ready : List TCB
  sList : List TCB
  input : List Nat
  output : List Nat
  nextPid : Nat
  nextTid : Nat

/-- Exit reason of one dispatch: continue the quantum loop, return 0
(a yield), return 1 (thread death), or return 2 (sleep). -/
inductive DR where
  | cont
  | norm
  | die
  | sleep
deriving DecidableEq

/-- Result of dispatching one instruction: the thread, the global state,
the exit reason, and the updated per-quantum cost register. -/
structure StepOut where
  t : TCB
  m : Machine
  res : DR
  cost : Nat

/-- Whether each of the `malloc` calls involved in a spawn succeeds
(the model's allocation oracle). -/
structure Alloc where
  pcb : Bool
  seg : Bool
  tcb : Bool

def allocT : Alloc := ⟨true, true, true⟩
def allocN : Alloc := ⟨false, false, false⟩

/-- Given a character code, its procedure number (`procNum` in the source;
`NOPROC` is modelled as `none`). -/
def procNum (a : Nat) : Option Nat :=
  if 48 ≤ a ∧ a ≤ 57 then some (a - 48)
  else if 65 ≤ a ∧ a ≤ 90 then some (a - 65 + 10)
  else if 97 ≤ a ∧ a ≤ 122 then some (a - 97 + 36)
  else none

/-- Find a PCB by process id in a process list. -/
def lookupPCB : List PCB → Nat → Option PCB
  | [], _ => none
  | p :: ps, i => if p.pid = i then some p else lookupPCB ps i

/-- Update the PCB with the given id in place. -/
def updatePCB : List PCB → Nat → (PCB → PCB) → List PCB
  | [], _, _ => []
  | p :: ps, i, f => if p.pid = i then f p :: ps else p :: updatePCB ps i f

/-- Remove the PCB with the given id, returning the rest and the removed
block. -/
def removePCB : List PCB → Nat → List PCB × Option PCB
  | [], _ => ([], none)
  | p :: ps, i =>
    if p.pid = i then (ps, some p)
    else
      let r := removePCB ps i
      (p :: r.1, r.2)

/-- The predicate of `checkSemaphores`: a sleeper waits on the cell
`(mem, ptr)` iff its data pointer is `ptr` and its current segment is
`mem`. -/
def pMatch (mem ptr : Nat) (u : TCB) : Bool := u.dp == ptr && u.cmem == mem

/-- checkSemaphores from brains4.c: walk the sleep list, unlink the first
thread whose `(cmem, dp)` matches and hand it back for scheduling; at most
one thread is removed per call. -/
def checkSemaphores (mem ptr : Nat) : List TCB → List TCB × Option TCB
  | [] => ([], none)
  | th :: rest =>
    if th.dp == ptr && th.cmem == mem then (rest, some th)
    else
      let r := checkSemaphores mem ptr rest
      (th :: r.1, r.2)

/-- The wake loop of the up instruction: `while (count--) if (sListHead
!= NULL) checkSemaphores(...)`.  Returns the remaining sleep list and the
woken threads in the order they were woken (each is scheduled
immediately in the source, so the order is preserved). -/
def wakeRounds (mem ptr : Nat) : Nat → List TCB → List TCB × List TCB
  | 0, l => (l, [])
  | _ + 1, [] => ([], [])
  | k + 1, th :: rest =>
    match checkSemaphores mem ptr (th :: rest) with
    | (l2, some w) =>
      let r := wakeRounds mem ptr k l2
      (r.1, w :: r.2)
    | (l2, none) => wakeRounds mem ptr k l2

/-- createThread from brains4.c: on allocation success the parent process
gains a thread, and the new thread (procedure table and stack copied by
value, `NULL` arguments giving an empty table and an untouched stack) is
scheduled.  Returns `true` exactly on failure, as the source does. -/
def createThread (ok : Bool) (m : Machine) (nparPid : Nat)
    (pr : Option (Nat → Option Nat)) (npc ndp ncmem : Nat)
    (ns : Option (Nat → Nat)) (nsp : Nat) : Machine × Bool :=
  if ok then
    let c : TCB :=
      { tid := m.nextTid, par := nparPid,
        procs := (match pr with | none => fun _ => none | some f => f),
        pc := npc, dp := ndp, cmem := ncmem,
        stack := (match ns with | none => fun _ => 0 | some f => f),
        sp := nsp }
    ({ m with
        pList := updatePCB m.pList nparPid (fun q => { q with threads := q.threads + 1 }),
        ready := m.ready ++ [c],
        nextTid := m.nextTid + 1 }, false)
  else (m, true)

/-- createProcess from brains4.c: allocates the PCB, its data segment and
its initial thread; only when all three succeed is the segment copied from
`copymem`, the thread scheduled, and the PCB appended to the process list.
On any failure everything allocated so far is freed and the machine is left
unchanged (the heap itself is not part of the model), returning `true`.
The new process id and its own segment id are both `m.nextPid`. -/
def createProcess (al : Alloc) (m : Machine) (copymem : Nat) (npmem : Option Nat)
    (nprocs : Option (Nat → Option Nat)) (npc ndp : Nat)
    (ns : Option (Nat → Nat)) (nsp : Nat) : Machine × Bool :=
  if al.pcb then
    if al.seg then
      if al.tcb then
        let pid := m.nextPid
        let c : PCB := { pid := pid, pmem := npmem, dmem := pid, threads := 1 }
        let th : TCB :=
          { tid := m.nextTid, par := pid,
            procs := (match nprocs with | none => fun _ => none | some f => f),
            pc := npc, dp := ndp, cmem := pid,
            stack := (match ns with | none => fun _ => 0 | some f => f),
            sp := nsp }
        ({ m with
            store := segCopy m.store pid copymem,
            pList := m.pList ++ [c],
            ready := m.ready ++ [th],
            nextPid := pid + 1,
            nextTid := m.nextTid + 1 }, false)
      else (m, true)
    else (m, true)
  else (m, true)

/-- Consume up to `n` bytes of the input stream (the `,` read loop): each
byte read is assigned to the cell, so the final cell is the last byte read,
or the accumulator unchanged when nothing could be read. -/
def readN : Nat → List Nat → Option Nat → List Nat × Option Nat
  | 0, inp, acc => (inp, acc)
  | _ + 1, [], acc => ([], acc)
  | k + 1, b :: inp, _ => readN k inp (some b)

/-- One iteration of the doQuanta dispatch loop of brains4.c: fetch the
instruction word at the pc, advance the pc, and dispatch on the opcode
byte.  `cost` is the persistent per-quantum cost register (`int cost = 1`
at quantum start); the returned cost is the value subtracted from the
quantum by this iteration (`quanta -= cost` runs after the switch).  The
`#` debug dump and the stderr message for a full call stack produce no
modelled effect beyond what the claims speak about. -/
def dispatch (imem : Nat → Nat) (al : Alloc) (t0 : TCB) (m : Machine) (cost : Nat) :
    StepOut :=
  let w := imem t0.pc
  let op := w % 256
  let n := w / 256
  let t : TCB := { t0 with pc := t0.pc + 1 }
  let cell := m.store t.cmem t.dp
  if op = 43 then
    { t := t, m := { m with store := writeCell m.store t.cmem t.dp (cellAdd cell n) },
      res := DR.cont, cost := cost }
  else if op = 45 then
    { t := t, m := { m with store := writeCell m.store t.cmem t.dp (cellSub cell n) },
      res := DR.cont, cost := cost }
  else if op = 62 then
    { t := { t with dp := dpAdd t.dp n }, m := m, res := DR.cont, cost := cost }
  else if op = 60 then
    { t := { t with dp := dpSub t.dp n }, m := m, res := DR.cont, cost := cost }
  else if op = 46 then
    { t := t, m := { m with output := m.output ++ List.replicate n cell },
      res := DR.cont, cost := cost }
  else if op = 44 then
    let r := readN n m.input none
    { t := t,
      m := { m with input := r.1,
                    store := (match r.2 with
                              | none => m.store
                              | some v => writeCell m.store t.cmem t.dp v) },
      res := DR.cont, cost := cost }
  else if op = 91 ∨ op = 40 then
    { t := (if cell = 0 then { t with pc := t.pc + n } else t), m := m,
      res := DR.cont, cost := cost }
  else if op = 125 then
    { t := (if cell = 0 then { t with pc := t.pc - n } else t), m := m,
      res := DR.cont, cost := cost }
  else if op = 93 then
    { t := (if cell = 0 then t else { t with pc := t.pc - n }), m := m,
      res := DR.cont, cost := cost }
  else if op = 123 then
    { t := (if cell = 0 then t else { t with pc := t.pc + n }), m := m,
      res := DR.cont, cost := cost }
  else if op = 58 then
    let t2 : TCB :=
      match procNum (imem t.pc % 256) with
      | some k => { t with procs := fun j => if j = k then some (t.pc + 1) else t.procs j }
      | none => t
    { t := { t2 with pc := t2.pc + n }, m := m, res := DR.cont, cost := cost }
  else if op = 124 then
    { t := { t with pc := t.pc + n }, m := m, res := DR.cont, cost := cost }
  else if op = 38 then
    let st2 := writeCell (writeCell m.store t.cmem t.dp 0) t.cmem (dpAdd t.dp 1) 1
    let m2 := { m with store := st2 }
    let r := createThread al.tcb m2 t.par (some t.procs) t.pc (dpAdd t.dp 1) t.cmem
               (some t.stack) t.sp
    if r.2 then
      { t := t, m := { m2 with store := writeCell st2 t.cmem (dpAdd t.dp 1) 0 },
        res := DR.cont, cost := cost }
    else
      { t := t, m := r.1, res := DR.cont, cost := cost }
  else if op = 37 then
    let st2 := writeCell (writeCell m.store t.cmem t.dp 0) t.cmem (dpAdd t.dp 1) 1
    let m2 := { m with store := st2 }
    match lookupPCB m.pList t.par with
    | some p =>
      let r := createProcess al m2 t.cmem (some p.dmem) (some t.procs) t.pc
                 (dpAdd t.dp 1) (some t.stack) t.sp
      if r.2 then
        { t := t, m := { m2 with store := writeCell st2 t.cmem (dpAdd t.dp 1) 0 },
          res := DR.cont, cost := cost }
      else
        { t := t, m := r.1, res := DR.cont, cost := cost }
    | none =>
      -- a running thread's parent is always on the process list; modelled
      -- as the failure branch to keep the function total
      { t := t, m := { m2 with store := writeCell st2 t.cmem (dpAdd t.dp 1) 0 },
        res := DR.cont, cost := cost }
  else if op = 94 then
    let wr := wakeRounds t.cmem t.dp n m.sList
    { t := t,
      m := { m with store := writeCell m.store t.cmem t.dp (cellAdd cell n),
                    sList := wr.1, ready := m.ready ++ wr.2 },
      res := DR.cont, cost := cost }
  else if op = 95 then
    if cell < n then
      { t := { t with pc := t.pc - 1 }, m := m, res := DR.sleep, cost := cost }
    else
      { t := t, m := { m with store := writeCell m.store t.cmem t.dp (cellSub cell n) },
        res := DR.cont, cost := cost }
  else if op = 42 then
    { t := t, m := m, res := DR.norm, cost := cost }
  else if op = 64 then
    { t := t, m := m, res := DR.die, cost := cost }
  else if op = 41 then
    { t := t, m := m, res := DR.cont, cost := cost }
  else if op = 61 then
    { t := t, m := m, res := DR.cont, cost := n }
  else if op = 34 then
    { t := t, m := { m with store := writeCell m.store t.cmem t.dp 0 },
      res := DR.cont, cost := cost }
  else if op = 126 then
    match lookupPCB m.pList t.par with
    | some p =>
      if some t.cmem = p.pmem then
        { t := { t with cmem := p.dmem }, m := m, res := DR.cont, cost := cost }
      else
        match p.pmem with
        | some q => { t := { t with cmem := q }, m := m, res := DR.cont, cost := cost }
        | none => { t := t, m := m, res := DR.cont, cost := cost }
    | none => { t := t, m := m, res := DR.cont, cost := cost }
  else if op = 59 then
    if t.sp = STACKSIZE then
      { t := t, m := m, res := DR.die, cost := cost }
    else
      { t := { t with pc := t.stack t.sp, sp := t.sp + 1 }, m := m,
        res := DR.cont, cost := cost }
  else if op = 35 then
    { t := t, m := m, res := DR.cont, cost := 0 }
  else
    match procNum op with
    | some k =>
      match t.procs k with
      | some target =>
        if imem t.pc = 59 ∨ imem t.pc = 36 then
          { t := { t with pc := target }, m := m, res := DR.cont, cost := cost }
        else if t.sp = 0 then
          { t := t, m := m, res := DR.cont, cost := cost }
        else
          { t := { t with
                    pc := target, sp := t.sp - 1,
                    stack := fun j => if j = t.sp - 1 then t.pc else t.stack j },
            m := m, res := DR.cont, cost := cost }
      | none => { t := t, m := m, res := DR.cont, cost := 0 }
    | none => { t := t, m := m, res := DR.cont, cost := 0 }

/-- makeDead for the thread-fair scheduler without cascading termination:
the dead process is unlinked from the process list and kept on the dead
process list for shutdown teardown. -/
def makeDead (m : Machine) (pid : Nat) : Machine :=
  match removePCB m.pList pid with
  | (ps, some p) => { m with pList := ps, dpList := m.dpList ++ [p] }
  | (_, none) => m

/-- The result handling of `execute`: a normal return reschedules the
thread, a death decrements the owner's thread count (tearing the process
down at zero), and a sleep appends the thread to the sleep list. -/
def afterQuanta (m : Machine) (t : TCB) : DR → Machine
  | DR.norm => { m with ready := m.ready ++ [t] }
  | DR.die =>
    let m1 := { m with
      pList := updatePCB m.pList t.par (fun p => { p with threads := p.threads - 1 }) }
    (match lookupPCB m1.pList t.par with
     | some p => if p.threads = 0 then makeDead m1 t.par else m1
     | none => m1)
  | DR.sleep => { m with sList := m.sList ++ [t] }
  | DR.cont => m

/-- Iterate the dispatch loop for a fixed number of instructions,
threading the thread state, the machine and the cost register (used for
runs in which every dispatch continues the loop). -/
def stepN (imem : Nat → Nat) (al : Alloc) : Nat → TCB → Machine → Nat →
    TCB × Machine × Nat
  | 0, t, m, cost => (t, m, cost)
  | k + 1, t, m, cost =>
    let s := dispatch imem al t m cost
    stepN imem al k s.t s.m s.cost

/-- The sequence of values subtracted from the quantum by successive
iterations of the dispatch loop (`quanta -= cost` after each dispatch). -/
def charges (imem : Nat → Nat) (al : Alloc) : Nat → TCB → Machine → Nat → List Nat
  | 0, _, _, _ => []
  | k + 1, t, m, cost =>
    let s := dispatch imem al t m cost
    s.cost :: charges imem al k s.t s.m s.cost

/-- The opcode bytes carrying an explicit case in the dispatch switch;
every other byte is treated as a (possible) procedure name. -/
def OpByte (op : Nat) : Prop :=
  op = 43 ∨ op = 45 ∨ op = 62 ∨ op = 60 ∨ op = 46 ∨ op = 44 ∨
  op = 91 ∨ op = 40 ∨ op = 125 ∨ op = 93 ∨ op = 123 ∨ op = 58 ∨
  op = 124 ∨ op = 38 ∨ op = 37 ∨ op = 94 ∨ op = 95 ∨ op = 42 ∨
  op = 64 ∨ op = 41 ∨ op = 61 ∨ op = 34 ∨ op = 126 ∨ op = 59 ∨
  op = 35

instance (op : Nat) : Decidable (OpByte op) := by
  unfold OpByte
  infer_instance

/-- Modelled from the words of claim C2, not from the source: every
dispatched instruction charges 1 tick, except that an `=` charges its
immediate run length and that value persists as the charge of subsequent
instructions until another `=`, a `#` charges 0, and a call to an
undefined procedure name charges 0.  The register `reg` (initially 1) is
changed only by `=`.  The machine state is advanced by the real dispatch
so that the claimed charges refer to the actually executed instruction
stream. -/
def claimCharges (imem : Nat → Nat) (al : Alloc) : Nat → TCB → Machine → Nat → List Nat
  | 0, _, _, _ => []
  | k + 1, t, m, reg =>
    let w := imem t.pc
    let op := w % 256
    let ch :=
      if op = 61 then w / 256
      else if op = 35 then 0
      else
        if OpByte op then reg
        else
          match procNum op with
          | some j => (match t.procs j with | some _ => reg | none => 0)
          | none => reg
    let reg2 := if op = 61 then w / 256 else reg
    let s := dispatch imem al t m reg2
    ch :: claimCharges imem al k s.t s.m reg2

/-- Modelled from the amended claim C2: each dispatch charges the current
value of the cost register, where `=` sets the register to its immediate
run length, `#` sets it to 0, and a call to an undefined procedure name
(or a byte naming no procedure) sets it to 0; every other instruction
charges the register unchanged, so every setting persists until the next
setting instruction. -/
def amendedCharge (imem : Nat → Nat) (t : TCB) (reg : Nat) : Nat :=
  let w := imem t.pc
  let op := w % 256
  if op = 61 then w / 256
  else if op = 35 then 0
  else
    if OpByte op then reg
    else
      match procNum op with
      | some j => (match t.procs j with | some _ => reg | none => 0)
      | none => 0

/-- A thread control block is well formed when its stack pointer and data
pointer are in range. -/
def TInv (u : TCB) : Prop := u.sp ≤ STACKSIZE ∧ u.dp < DMEM

/- ------------------------------------------------------------------ -/
/- The compiler: getNext token filtering is modelled by feeding the      -/
/- already filtered character codes as a list; the empty list is EOF.    -/
/- ------------------------------------------------------------------ -/

/-- Point update of the instruction memory under construction. -/
def upd (mem : Nat → Nat) (i v : Nat) : Nat → Nat :=
  fun j => if j = i then v else mem j

/-- Read of the instruction memory at a possibly negative index (the
`op == -1` toplevel marker of recCompile); a negative index reads as 0,
which matches no opcode. -/
def memI (mem : Nat → Nat) (i : Int) : Nat :=
  if i < 0 then 0 else mem i.toNat

/-- The repeatable operations `+-><^_,.~=` of the run-length scanner. -/
def isRepeat (c : Nat) : Bool :=
  c == 43 || c == 45 || c == 62 || c == 60 || c == 94 || c == 95 ||
  c == 44 || c == 46 || c == 126 || c == 61

/-- Count how many further copies of `c` head the stream and drop them
(the run-length lookahead with its final ungetc). -/
def takeRun (c : Nat) : List Nat → Nat × List Nat
  | [] => (0, [])
  | x :: xs =>
    if x = c then
      let r := takeRun c xs
      (r.1 + 1, r.2)
    else (0, x :: xs)

/-- The rewrite applied by backFill at one position: a break (39) becomes
an unconditional jump (124) landing at `e` (just after the loop), a
continue (96) becomes a jump landing at `e - 1` (the back-edge); anything
else is untouched. -/
def bfWord (e j w : Nat) : Nat :=
  if w = 39 then 124 + (e - j - 1) * 256
  else if w = 96 then 124 + (e - j - 2) * 256
  else w

/-- The loop of backFill, walking `k` positions starting at `i`
(an update with an unchanged value models the untouched case). -/
def backFillGo (e : Nat) : Nat → (Nat → Nat) → Nat → (Nat → Nat)
  | 0, mem, _ => mem
  | k + 1, mem, i => backFillGo e k (upd mem i (bfWord e i (mem i))) (i + 1)

/-- backFill from brains4.c: rewrite every unresolved break and continue
word in `[start, e)` to a forward jump. -/
def backFill (mem : Nat → Nat) (start e : Nat) : Nat → Nat :=
  backFillGo e (e - start) mem start

/-- recCompile from brains4.c, with fuel for the loop and the recursion.
Arguments are the instruction memory, the token stream, the write position
`cp`, the position `op` of the opening word of the current construct
(`-1` at toplevel), the loop flag `ll` (false models `BAD`, i.e. break and
continue are illegal), and the unresolved break flag `bf`.  The result is
`none` for ill-formed source (or fuel exhaustion), otherwise the memory, the
remaining stream, the next write position, the break flag handed to a
`(`-caller through the `pi` pointer (only a `)` return passes it), and
whether the stream's EOF was consumed (the `feof` flag of Compile). -/
def rcc : Nat → (Nat → Nat) → List Nat → Nat → Int → Bool → Bool →
    Option ((Nat → Nat) × List Nat × Nat × Bool × Bool)
  | 0, _, _, _, _, _, _ => none
  | fuel + 1, mem, inp, cp, op, ll, bf =>
    match inp with
    | [] =>
      -- getNext gives EOF: the return-from-program case writes an '@'
      if op = -1 ∨ memI mem op = 64 then some (upd mem cp 64, [], cp + 1, false, true)
      else none
    | cc :: rest =>
      let r := if isRepeat cc then
                 let tr := takeRun cc rest
                 (1 + tr.1, tr.2)
               else (0, rest)
      let rl := r.1
      let inp2 := r.2
      let mem1 := upd mem cp (cc + rl * 256)
      let cp1 := cp + 1
      if cc = 126 then
        -- a segment swap with an even run length is elided
        if rl % 2 = 0 then rcc fuel mem1 inp2 cp op ll bf
        else rcc fuel mem1 inp2 cp1 op ll bf
      else if cc = 36 then
        -- '$' is rewritten to ';'
        rcc fuel (upd mem1 cp 59) inp2 cp1 op ll bf
      else if cc = 91 then
        match rcc fuel mem1 inp2 cp1 (cp : Int) true false with
        | none => none
        | some (mem2, inp3, np, _, _) =>
          let mem3 := upd mem2 cp (mem2 cp + (np - cp1) * 256)
          let mem4 := upd mem3 (np - 1) (mem3 (np - 1) + (np - cp1) * 256)
          if cp1 = 1 ∨ (memI mem4 ((cp1 : Int) - 2)) % 256 = 93 ∨
             memI mem4 ((cp1 : Int) - 2) = 34 ∨ memI mem4 ((cp1 : Int) - 2) = 64 then
            -- no loop at the start of a program, after a loop, after '"'
            -- or after '@': the whole loop is dropped
            rcc fuel mem4 inp3 cp op ll bf
          else if cp1 + 2 = np ∧ mem4 cp1 = 45 + 256 then
            -- the body is a single '-' with run 1: collapse to '"'
            rcc fuel (upd mem4 cp 34) inp3 cp1 op ll bf
          else rcc fuel mem4 inp3 np op ll bf
      else if cc = 123 then
        match rcc fuel mem1 inp2 cp1 (cp : Int) true false with
        | none => none
        | some (mem2, inp3, np, _, _) =>
          let mem3 := upd mem2 cp (mem2 cp + (np - cp1) * 256)
          let mem4 := upd mem3 (np - 1) (mem3 (np - 1) + (np - cp1) * 256)
          if cp1 ≠ 1 ∧ (memI mem4 ((cp1 : Int) - 2)) % 256 = 125 then
            rcc fuel mem4 inp3 cp op ll bf
          else rcc fuel mem4 inp3 np op ll bf
      else if cc = 40 then
        match rcc fuel mem1 inp2 cp1 (cp : Int) ll false with
        | none => none
        | some (mem2, inp3, np, bfP, _) =>
          -- the unresolved break flag propagates out of an if to its caller
          rcc fuel mem2 inp3 np op ll (bf || bfP)
      else if cc = 58 then
        match rcc fuel mem1 inp2 cp1 (cp : Int) false false with
        | none => none
        | some (mem2, inp3, np, _, _) => rcc fuel mem2 inp3 np op ll bf
      else if cc = 93 then
        if memI mem1 op = 91 then
          some ((if bf then backFill mem1 ((op + 1).toNat) cp1 else mem1),
                inp2, cp1, false, false)
        else none
      else if cc = 125 then
        if memI mem1 op = 123 then
          some ((if bf then backFill mem1 ((op + 1).toNat) cp1 else mem1),
                inp2, cp1, false, false)
        else none
      else if cc = 124 then
        if memI mem1 op = 40 then
          rcc fuel (upd mem1 op.toNat (memI mem1 op + (cp1 - op.toNat - 1) * 256))
            inp2 cp1 ((cp1 : Int) - 1) ll bf
        else none
      else if cc = 41 then
        -- the ')' word is dropped again (cp--)
        if memI mem1 op = 40 ∨ memI mem1 op = 124 then
          some (upd mem1 op.toNat (memI mem1 op + (cp - op.toNat - 1) * 256),
                inp2, cp, bf, false)
        else none
      else if cc = 59 then
        if memI mem1 op = 58 then
          some (upd mem1 op.toNat (58 + (cp1 - op.toNat - 1) * 256), inp2, cp1,
                false, false)
        else none
      else if cc = 96 then
        if ll then rcc fuel mem1 inp2 cp1 op ll true else none
      else if cc = 39 then
        if ll then rcc fuel mem1 inp2 cp1 op ll true else none
      else if cc = 64 ∨ cc = 33 then
        if op = -1 ∨ memI mem1 op = 64 then some (mem1, inp2, cp1, false, false)
        else none
      else
        -- procedure names and the remaining repeatable operations have no
        -- switch case: the word is kept and the loop continues
        rcc fuel mem1 inp2 cp1 op ll bf

/-- Compile from brains4.c: one primordial process is created per
top-level program (allocation modelled as succeeding; the source merely
prints a diagnostic on failure), then the program is compiled; an `!`
result is rewritten to `@` and the rest of the stream becomes the
evaluator input; compilation of programs continues until EOF was
consumed.  Returns the machine, the instruction memory, the next free
instruction index, and the evaluator input stream. -/
def compileGo : Nat → Machine → (Nat → Nat) → List Nat → Nat →
    Option (Machine × (Nat → Nat) × Nat × List Nat)
  | 0, _, _, _, _ => none
  | fuel + 1, m, mem, inp, cp =>
    let pr := createProcess allocT m 0 (some 0) none cp 0 none STACKSIZE
    match rcc (fuel + 1) mem inp cp ((cp : Int) - 1) false false with
    | none => none
    | some (mem2, inp2, np, _, eofHit) =>
      if mem2 (np - 1) = 33 then some (pr.1, upd mem2 (np - 1) 64, np, inp2)
      else if eofHit then some (pr.1, mem2, np, inp2)
      else compileGo fuel pr.1 mem2 inp2 np

/- ------------------------------------------------------------------ -/
/- Concrete fixtures used by witnesses and concrete compilations.        -/
/- ------------------------------------------------------------------ -/

/-- The all-zero instruction memory. -/
def zmem : Nat → Nat := fun _ => 0

/-- The machine state before compilation: empty lists, zeroed store,
process ids from 1 (segment 0 is the system segment). -/
def m0 : Machine :=
  { store := fun _ _ => 0, pList := [], dpList := [], ready := [], sList := [],
    input := [], output := [], nextPid := 1, nextTid := 0 }

/-- A plain thread used as a base for concrete states. -/
def tcb0 : TCB :=
  { tid := 0, par := 1, procs := fun _ => none, pc := 0, dp := 0, cmem := 0,
    stack := fun _ => 0, sp := STACKSIZE }

/-- Source `+@+`: two top-level programs separated by `@`. -/
def src4 : List Nat := [43, 64, 43]

/-- Source `:A+;A$`: a definition of A, then a tail call of A via `$`. -/
def src5 : List Nat := [58, 65, 43, 59, 65, 36]

/-- Source `+[('|` then backtick then `)]`: a loop containing an if with a
break in the then-branch and a continue in the else-branch. -/
def src8 : List Nat := [43, 91, 40, 39, 124, 96, 41, 93]

/-- Source `+[-]`. -/
def src9 : List Nat := [43, 91, 45, 93]

/-- The compiled instruction memory of `src8` (falling back to the zero
memory on failure, which the concrete theorems rule out). -/
def im8 : Nat → Nat :=
  match compileGo 20 m0 zmem src8 0 with
  | some r => r.2.1
  | none => zmem

/-- An instruction memory with a tail call of procedure slot 10 at index 0
and a return at index 1. -/
def imTail : Nat → Nat := fun i => if i = 0 then 65 else if i = 1 then 59 else 0

/-- A thread about to run the tail call of `imTail` forever: procedure A
is defined at index 0. -/
def t5 : TCB :=
  { tcb0 with procs := fun k => if k = 10 then some 0 else none }

/-- An instruction memory of spawn-thread words. -/
def imemAmp : Nat → Nat := fun _ => 38

/-- An instruction memory of spawn-process words. -/
def imemPct : Nat → Nat := fun _ => 37

/-- An instruction memory of down words with run length 1. -/
def imemDown1 : Nat → Nat := fun _ => 95 + 1 * 256

/-- An instruction memory of up words with run length 2. -/
def imemUp2 : Nat → Nat := fun _ => 94 + 2 * 256

/-- An instruction memory holding `#` then `+` (for the cost accounting
counterexample). -/
def imemHash : Nat → Nat := fun i => if i = 0 then 35 else if i = 1 then 43 + 256 else 0

/-- The compiled form of `[-]` placed at index 0, with `"` elsewhere. -/
def imemLoop : Nat → Nat :=
  fun i => if i = 0 then 91 + 2 * 256 else if i = 1 then 45 + 1 * 256
           else if i = 2 then 93 + 2 * 256 else 34

/-- An instruction memory of `"` words. -/
def imemQuote : Nat → Nat := fun _ => 34

/-- A machine whose cells all hold 2. -/
def mw2 : Machine := { m0 with store := fun _ _ => 2 }

/-- The PCB of a primordial process with id 1. -/
def pcb1 : PCB := { pid := 1, pmem := some 0, dmem := 1, threads := 1 }

/-- A machine holding the primordial process `pcb1`. -/
def mP : Machine := { m0 with pList := [pcb1], nextPid := 2 }

/-- Sleepers for the wake-order scenario: `uA` and `uC` wait on the cell
`(segment 0, index 0)`, `uB` waits on index 7 of the same segment. -/
def uA : TCB := { tcb0 with tid := 21 }

def uB : TCB := { tcb0 with tid := 22, dp := 7 }

def uC : TCB := { tcb0 with tid := 23 }

/-- A machine with the three sleepers parked in FIFO order. -/
def mS : Machine := { m0 with sList := [uA, uB, uC] }

/- ------------------------------------------------------------------ -/
/- Helper lemmas.                                                        -/
/- ------------------------------------------------------------------ -/

theorem writeCell_get (st : Store) (s i v : Nat) : writeCell st s i v s i = v := by
  simp [writeCell]

theorem writeCell_writeCell (st : Store) (s i a b : Nat) :
    writeCell (writeCell st s i a) s i b = writeCell st s i b := by
  funext x y
  by_cases h : x = s ∧ y = i <;> simp [writeCell, h]

theorem checkSemaphores_eq (mem ptr : Nat) (l : List TCB) :
    checkSemaphores mem ptr l = (l.eraseP (pMatch mem ptr), l.find? (pMatch mem ptr)) := by
  induction l with
  | nil => rfl
  | cons u rest ih =>
    by_cases h : (u.dp == ptr && u.cmem == mem) = true
    · have hp : pMatch mem ptr u = true := h
      simp only [checkSemaphores, if_pos h]
      rw [List.eraseP_cons_of_pos hp, List.find?_cons_of_pos rest hp]
    · have hp : ¬ pMatch mem ptr u = true := h
      simp only [checkSemaphores, if_neg h, ih]
      rw [List.eraseP_cons_of_neg hp, List.find?_cons_of_neg rest hp]

theorem filter_cons_eraseP (p : TCB → Bool) :
    ∀ (l : List TCB) (v : TCB), l.find? p = some v →
      l.filter p = v :: (l.eraseP p).filter p := by
  intro l
  induction l with
  | nil => intro v h; exact absurd h (by simp)
  | cons u rest ih =>
    intro v h
    by_cases hp : p u = true
    · rw [List.find?_cons_of_pos rest hp] at h
      cases h
      rw [List.eraseP_cons_of_pos hp, List.filter_cons_of_pos hp]
    · rw [List.find?_cons_of_neg rest hp] at h
      rw [List.eraseP_cons_of_neg hp, List.filter_cons_of_neg hp,
          List.filter_cons_of_neg hp, ih v h]

theorem eraseP_of_find_none (p : TCB → Bool) (l : List TCB)
    (h : l.find? p = none) : l.eraseP p = l :=
  List.eraseP_of_forall_not (by simpa using List.find?_eq_none.mp h)

theorem filter_of_find_none (p : TCB → Bool) (l : List TCB)
    (h : l.find? p = none) : l.filter p = [] :=
  List.filter_eq_nil_iff.mpr (by simpa using List.find?_eq_none.mp h)

theorem wakeRounds_eq (mem ptr : Nat) :
    ∀ (n : Nat) (l : List TCB),
      wakeRounds mem ptr n l =
        ((List.eraseP (pMatch mem ptr))^[n] l, (l.filter (pMatch mem ptr)).take n) := by
  intro n
  induction n with
  | zero => intro l; rfl
  | succ k ih =>
    intro l
    match l with
    | [] =>
      show ([], []) = _
      rw [Function.iterate_fixed (by simp) (k + 1)]
      simp
    | u :: rest =>
      rw [show wakeRounds mem ptr (k + 1) (u :: rest) =
            (match checkSemaphores mem ptr (u :: rest) with
             | (l2, some w) =>
               let r := wakeRounds mem ptr k l2
               (r.1, w :: r.2)
             | (l2, none) => wakeRounds mem ptr k l2) from rfl]
      rw [checkSemaphores_eq]
      cases hf : (u :: rest).find? (pMatch mem ptr) with
      | some v =>
        simp only [ih]
        rw [Function.iterate_succ_apply,
            filter_cons_eraseP (pMatch mem ptr) (u :: rest) v hf,
            List.take_succ_cons]
      | none =>
        simp only [ih]
        rw [eraseP_of_find_none (pMatch mem ptr) (u :: rest) hf,
            filter_of_find_none (pMatch mem ptr) (u :: rest) hf,
            Function.iterate_succ_apply,
            eraseP_of_find_none (pMatch mem ptr) (u :: rest) hf]
        simp

theorem iterate_eraseP_sublist (p : TCB → Bool) :
    ∀ (n : Nat) (l : List TCB), List.Sublist ((List.eraseP p)^[n] l) l := by
  intro n
  induction n with
  | zero => intro l; exact List.Sublist.refl l
  | succ k ih =>
    intro l
    rw [Function.iterate_succ_apply]
    exact List.Sublist.trans (ih (l.eraseP p)) (List.eraseP_sublist l)

theorem stepN_add (imem : Nat → Nat) (al : Alloc) :
    ∀ (a b : Nat) (t : TCB) (m : Machine) (c : Nat),
      stepN imem al (a + b) t m c =
        stepN imem al b (stepN imem al a t m c).1 (stepN imem al a t m c).2.1
          (stepN imem al a t m c).2.2 := by
  intro a
  induction a with
  | zero => intro b t m c; rw [Nat.zero_add]; rfl
  | succ k ih =>
    intro b t m c
    rw [Nat.succ_add]
    show stepN imem al (k + b) _ _ _ = _
    rw [ih]
    rfl

theorem dispatch_minus (imem : Nat → Nat) (al : Alloc) (t : TCB) (m : Machine) (cost : Nat)
    (h : imem t.pc % 256 = 45) :
    dispatch imem al t m cost =
      ⟨{ t with pc := t.pc + 1 },
       { m with store := writeCell m.store t.cmem t.dp (cellSub (m.store t.cmem t.dp) (imem t.pc / 256)) },
       DR.cont, cost⟩ := by
  simp only [dispatch, h]
  norm_num

theorem dispatch_loopEnter (imem : Nat → Nat) (al : Alloc) (t : TCB) (m : Machine) (cost : Nat)
    (h : imem t.pc % 256 = 91 ∨ imem t.pc % 256 = 40) :
    dispatch imem al t m cost =
      ⟨(if m.store t.cmem t.dp = 0 then { t with pc := t.pc + 1 + imem t.pc / 256 }
        else { t with pc := t.pc + 1 }), m, DR.cont, cost⟩ := by
  rcases h with h | h <;> simp only [dispatch, h] <;> norm_num

theorem dispatch_loopBack (imem : Nat → Nat) (al : Alloc) (t : TCB) (m : Machine) (cost : Nat)
    (h : imem t.pc % 256 = 93) :
    dispatch imem al t m cost =
      ⟨(if m.store t.cmem t.dp = 0 then { t with pc := t.pc + 1 }
        else { t with pc := t.pc + 1 - imem t.pc / 256 }), m, DR.cont, cost⟩ := by
  simp only [dispatch, h]
  norm_num

theorem dispatch_zeroCell (imem : Nat → Nat) (al : Alloc) (t : TCB) (m : Machine) (cost : Nat)
    (h : imem t.pc % 256 = 34) :
    dispatch imem al t m cost =
      ⟨{ t with pc := t.pc + 1 },
       { m with store := writeCell m.store t.cmem t.dp 0 },
       DR.cont, cost⟩ := by
  simp only [dispatch, h]
  norm_num
theorem loopBodyRun (imem : Nat → Nat) (al : Alloc) (p : Nat)
    (h1 : imem (p + 1) = 45 + 1 * 256) (h2 : imem (p + 2) = 93 + 2 * 256) :
    ∀ (c : Nat) (t : TCB) (m : Machine) (cost : Nat),
      t.pc = p + 1 → m.store t.cmem t.dp = c + 1 → c + 1 ≤ 255 →
      stepN imem al (2 * (c + 1)) t m cost =
        ({ t with pc := p + 3 }, { m with store := writeCell m.store t.cmem t.dp 0 }, cost) := by
  intro c
  induction c with
  | zero =>
    intro t m cost hpc hcell hle
    have hm1 : imem t.pc % 256 = 45 := by rw [hpc, h1]
    have hn1 : imem t.pc / 256 = 1 := by rw [hpc, h1]
    have e1 := dispatch_minus imem al t m cost hm1
    rw [hn1, hcell] at e1
    have hz : cellSub 1 1 = 0 := by decide
    rw [hz] at e1
    show stepN imem al 2 t m cost = _
    rw [show stepN imem al 2 t m cost =
          stepN imem al 1 (dispatch imem al t m cost).t (dispatch imem al t m cost).m
            (dispatch imem al t m cost).cost from rfl, e1]
    have hm2 : imem ({ t with pc := t.pc + 1 } : TCB).pc % 256 = 93 := by
      show imem (t.pc + 1) % 256 = 93
      rw [hpc, h2]
    have e2 := dispatch_loopBack imem al { t with pc := t.pc + 1 }
      { m with store := writeCell m.store t.cmem t.dp 0 } cost hm2
    rw [show stepN imem al 1
          ({ t with pc := t.pc + 1 } : TCB)
          ({ m with store := writeCell m.store t.cmem t.dp 0 } : Machine) cost =
          ((dispatch imem al { t with pc := t.pc + 1 } { m with store := writeCell m.store t.cmem t.dp 0 } cost).t,
           (dispatch imem al { t with pc := t.pc + 1 } { m with store := writeCell m.store t.cmem t.dp 0 } cost).m,
           (dispatch imem al { t with pc := t.pc + 1 } { m with store := writeCell m.store t.cmem t.dp 0 } cost).cost)
          from rfl, e2]
    simp only [writeCell_get]
    simp [hpc]
  | succ c ih =>
    intro t m cost hpc hcell hle
    have hm1 : imem t.pc % 256 = 45 := by rw [hpc, h1]
    have hn1 : imem t.pc / 256 = 1 := by rw [hpc, h1]
    have e1 := dispatch_minus imem al t m cost hm1
    rw [hn1, hcell] at e1
    have hz : cellSub (c + 1 + 1) 1 = c + 1 := by
      unfold cellSub
      omega
    rw [hz] at e1
    have hm2 : imem ({ t with pc := t.pc + 1 } : TCB).pc % 256 = 93 := by
      show imem (t.pc + 1) % 256 = 93
      rw [hpc, h2]
    have hn2 : imem ({ t with pc := t.pc + 1 } : TCB).pc / 256 = 2 := by
      show imem (t.pc + 1) / 256 = 2
      rw [hpc, h2]
    have e2 := dispatch_loopBack imem al { t with pc := t.pc + 1 }
      { m with store := writeCell m.store t.cmem t.dp (c + 1) } cost hm2
    rw [hn2] at e2
    have s2 : stepN imem al 2 t m cost =
        ({ t with pc := p + 1 },
         { m with store := writeCell m.store t.cmem t.dp (c + 1) }, cost) := by
      rw [show stepN imem al 2 t m cost =
            stepN imem al 1 (dispatch imem al t m cost).t (dispatch imem al t m cost).m
              (dispatch imem al t m cost).cost from rfl, e1]
      rw [show stepN imem al 1
            ({ t with pc := t.pc + 1 } : TCB)
            ({ m with store := writeCell m.store t.cmem t.dp (c + 1) } : Machine) cost =
            ((dispatch imem al { t with pc := t.pc + 1 } { m with store := writeCell m.store t.cmem t.dp (c + 1) } cost).t,
             (dispatch imem al { t with pc := t.pc + 1 } { m with store := writeCell m.store t.cmem t.dp (c + 1) } cost).m,
             (dispatch imem al { t with pc := t.pc + 1 } { m with store := writeCell m.store t.cmem t.dp (c + 1) } cost).cost)
            from rfl, e2]
      simp only [writeCell_get]
      simp [hpc]
    rw [show 2 * (c + 1 + 1) = 2 + 2 * (c + 1) from by ring, stepN_add, s2]
    have ihr := ih { t with pc := p + 1 }
      { m with store := writeCell m.store t.cmem t.dp (c + 1) } cost rfl
      (by simp [writeCell_get]) (by omega)
    simp only [ihr]
    simp [writeCell_writeCell]
theorem writeCell_self (st : Store) (s i : Nat) :
    writeCell st s i (st s i) = st := by
  funext x y
  by_cases h : x = s ∧ y = i
  · rcases h with ⟨hx, hy⟩
    subst hx
    subst hy
    simp [writeCell]
  · simp [writeCell, h]

/-- C9: for every starting state, executing the compiled loop `[-]` until
control leaves the loop produces exactly the post-state of the synthetic
`"` instruction, namely the current cell zeroed and every other thread and
machine component unchanged (the pc in both cases rests just past the
executed code); and the compiler collapses `+[-]` so that the word after
the `+` is the single `"` opcode 34. -/
theorem claim9_clear_loop (imem imemQ : Nat → Nat) (al alQ : Alloc)
    (t : TCB) (m : Machine) (cost : Nat)
    (h0 : imem t.pc = 91 + 2 * 256) (h1 : imem (t.pc + 1) = 45 + 1 * 256)
    (h2 : imem (t.pc + 2) = 93 + 2 * 256) (hq : imemQ t.pc % 256 = 34)
    (hcell : m.store t.cmem t.dp ≤ 255) :
    stepN imem al
        (if m.store t.cmem t.dp = 0 then 1 else 1 + 2 * m.store t.cmem t.dp) t m cost =
      ({ t with pc := t.pc + 3 }, { m with store := writeCell m.store t.cmem t.dp 0 }, cost)
    ∧ dispatch imemQ alQ t m cost =
        ⟨{ t with pc := t.pc + 1 }, { m with store := writeCell m.store t.cmem t.dp 0 },
         DR.cont, cost⟩
    ∧ (compileGo 20 m0 zmem src9 0).map (fun r => (List.range 3).map r.2.1) =
        some [299, 34, 64] := by
  refine ⟨?_, dispatch_zeroCell imemQ alQ t m cost hq, by decide⟩
  have hm0 : imem t.pc % 256 = 91 ∨ imem t.pc % 256 = 40 := by
    left
    rw [h0]
  have hn0 : imem t.pc / 256 = 2 := by rw [h0]
  have e0 := dispatch_loopEnter imem al t m cost hm0
  rw [hn0] at e0
  cases hc : m.store t.cmem t.dp with
  | zero =>
    rw [hc] at e0
    norm_num at e0 ⊢
    rw [show stepN imem al 1 t m cost =
          ((dispatch imem al t m cost).t, (dispatch imem al t m cost).m,
           (dispatch imem al t m cost).cost) from rfl, e0]
    have hw : writeCell m.store t.cmem t.dp 0 = m.store := by
      rw [← hc]
      exact writeCell_self m.store t.cmem t.dp
    rw [hw]
  | succ c =>
    rw [hc] at e0
    rw [if_neg (Nat.succ_ne_zero c)] at e0
    rw [if_neg (Nat.succ_ne_zero c), stepN_add]
    rw [show stepN imem al 1 t m cost =
          ((dispatch imem al t m cost).t, (dispatch imem al t m cost).m,
           (dispatch imem al t m cost).cost) from rfl, e0]
    have hr := loopBodyRun imem al t.pc h1 h2 c { t with pc := t.pc + 1 } m cost rfl hc
      (by omega)
    simp only [hr]
theorem dispatch_colon_m (imem : Nat → Nat) (al : Alloc) (t : TCB) (m : Machine) (cost : Nat)
    (h : imem t.pc % 256 = 58) :
    (dispatch imem al t m cost).m = m := by
  simp only [dispatch, h]
  norm_num

/-- C1: the spawn-thread instruction writes 0 to the current cell and 1 to
the adjacent cell `(dp+1) mod DMEM`, then creates and schedules a thread
of the same process whose pc is the already advanced pc, whose data
pointer is the adjacent index, whose current segment is the spawning
thread's current segment, and whose procedure table and call stack are
by-value copies taken at spawn time (so a subsequent procedure definition
executed by the parent leaves the scheduled child, hence its table,
unchanged); when thread creation fails only the adjacent cell is restored
to 0 and nothing is scheduled. -/
theorem claim1_spawn_thread (imem : Nat → Nat) (t : TCB) (m : Machine) (cost : Nat)
    (hop : imem t.pc % 256 = 38) :
    (dispatch imem allocT t m cost).m.ready =
        m.ready ++ [⟨m.nextTid, t.par, t.procs, t.pc + 1, dpAdd t.dp 1, t.cmem, t.stack, t.sp⟩]
    ∧ (dispatch imem allocT t m cost).m.store =
        writeCell (writeCell m.store t.cmem t.dp 0) t.cmem (dpAdd t.dp 1) 1
    ∧ (dispatch imem allocT t m cost).m.pList =
        updatePCB m.pList t.par (fun q => { q with threads := q.threads + 1 })
    ∧ (dispatch imem allocT t m cost).t = { t with pc := t.pc + 1 }
    ∧ (dispatch imem allocT t m cost).res = DR.cont
    ∧ (∀ imem2 cost2, imem2 (t.pc + 1) % 256 = 58 →
        (dispatch imem2 allocT (dispatch imem allocT t m cost).t
            (dispatch imem allocT t m cost).m cost2).m.ready =
          m.ready ++ [⟨m.nextTid, t.par, t.procs, t.pc + 1, dpAdd t.dp 1, t.cmem, t.stack, t.sp⟩])
    ∧ (dispatch imem allocN t m cost).m.ready = m.ready
    ∧ (dispatch imem allocN t m cost).m.pList = m.pList
    ∧ (dispatch imem allocN t m cost).m.store =
        writeCell (writeCell (writeCell m.store t.cmem t.dp 0) t.cmem (dpAdd t.dp 1) 1)
          t.cmem (dpAdd t.dp 1) 0 := by
  have hr : ∀ cost3, dispatch imem allocT t m cost3 =
      ⟨{ t with pc := t.pc + 1 },
       { m with
          store := writeCell (writeCell m.store t.cmem t.dp 0) t.cmem (dpAdd t.dp 1) 1,
          pList := updatePCB m.pList t.par (fun q => { q with threads := q.threads + 1 }),
          ready := m.ready ++ [⟨m.nextTid, t.par, t.procs, t.pc + 1, dpAdd t.dp 1, t.cmem, t.stack, t.sp⟩],
          nextTid := m.nextTid + 1 },
       DR.cont, cost3⟩ := by
    intro cost3
    simp only [dispatch, hop, createThread, allocT]
    norm_num
  have hf : dispatch imem allocN t m cost =
      ⟨{ t with pc := t.pc + 1 },
       { m with
          store := writeCell (writeCell (writeCell m.store t.cmem t.dp 0) t.cmem (dpAdd t.dp 1) 1)
                     t.cmem (dpAdd t.dp 1) 0 },
       DR.cont, cost⟩ := by
    simp only [dispatch, hop, createThread, allocN]
    norm_num
  refine ⟨by rw [hr], by rw [hr], by rw [hr], by rw [hr], by rw [hr], ?_, by rw [hf], by rw [hf], by rw [hf]⟩
  intro imem2 cost2 h58
  rw [hr]
  have := dispatch_colon_m imem2 allocT
    ({ t with pc := t.pc + 1 } : TCB)
    ({ m with
        store := writeCell (writeCell m.store t.cmem t.dp 0) t.cmem (dpAdd t.dp 1) 1,
        pList := updatePCB m.pList t.par (fun q => { q with threads := q.threads + 1 }),
        ready := m.ready ++ [⟨m.nextTid, t.par, t.procs, t.pc + 1, dpAdd t.dp 1, t.cmem, t.stack, t.sp⟩],
        nextTid := m.nextTid + 1 } : Machine) cost2 h58
  rw [this]

/-- C3: for the down instruction with run length n, when the current cell
(an 8-bit value) is below n the dispatch reports sleep, the pc is rewound
onto the `_` word, the thread and the store are unchanged, and the result
handler parks exactly this thread, carrying its (current segment, data
pointer) tag, at the tail of the sleep list; otherwise the cell is
decremented by n and the thread continues. -/
theorem claim3_down (imem : Nat → Nat) (al : Alloc) (t : TCB) (m : Machine) (cost : Nat)
    (hop : imem t.pc % 256 = 95) (hcell : m.store t.cmem t.dp ≤ 255) :
    (m.store t.cmem t.dp < imem t.pc / 256 →
      dispatch imem al t m cost = ⟨t, m, DR.sleep, cost⟩
      ∧ afterQuanta (dispatch imem al t m cost).m (dispatch imem al t m cost).t
          (dispatch imem al t m cost).res =
          { m with sList := m.sList ++ [t] })
    ∧ (¬ m.store t.cmem t.dp < imem t.pc / 256 →
      dispatch imem al t m cost =
        ⟨{ t with pc := t.pc + 1 },
         { m with store := writeCell m.store t.cmem t.dp
                             (m.store t.cmem t.dp - imem t.pc / 256) },
         DR.cont, cost⟩) := by
  constructor
  · intro hlt
    have es : dispatch imem al t m cost = ⟨t, m, DR.sleep, cost⟩ := by
      simp only [dispatch, hop]
      norm_num
      exact hlt
    rw [es]
    exact ⟨rfl, rfl⟩
  · intro hge
    have hv : cellSub (m.store t.cmem t.dp) (imem t.pc / 256) =
        m.store t.cmem t.dp - imem t.pc / 256 := by
      unfold cellSub
      omega
    simp only [dispatch, hop]
    norm_num
    rw [if_neg hge, hv]
    

/-- C6: the up instruction with run length n adds n to the current cell
once (with 8-bit wrap), then performs n wake scans of the sleep list: the
woken threads are exactly the first at-most-n sleepers, in sleep-list
order, whose (segment, data pointer) matches the waker's current segment
and data pointer, appended to the schedule queue in that same FIFO order
(at most one per unit of increment), and the remaining sleep list is the
old one with one first-match removal per scan; a scan finding no match
wakes nobody. -/
theorem claim6_wake (imem : Nat → Nat) (al : Alloc) (t : TCB) (m : Machine) (cost : Nat)
    (hop : imem t.pc % 256 = 94) :
    (dispatch imem al t m cost).m.ready =
        m.ready ++ (m.sList.filter (pMatch t.cmem t.dp)).take (imem t.pc / 256)
    ∧ (dispatch imem al t m cost).m.sList =
        (List.eraseP (pMatch t.cmem t.dp))^[imem t.pc / 256] m.sList
    ∧ (dispatch imem al t m cost).m.store =
        writeCell m.store t.cmem t.dp (cellAdd (m.store t.cmem t.dp) (imem t.pc / 256))
    ∧ (dispatch imem al t m cost).t = { t with pc := t.pc + 1 }
    ∧ (dispatch imem al t m cost).res = DR.cont := by
  simp only [dispatch, hop, wakeRounds_eq]
  norm_num

/-- C10: when any allocation involved in the spawn-process instruction
fails, no PCB is appended to the process list, no thread is scheduled, the
id supplies are untouched, and the only visible effects are that the
current cell holds 0 and the adjacent cell `(dp+1) mod DMEM` is restored
to 0. -/
theorem claim10_spawn_process_failure (imem : Nat → Nat) (al : Alloc) (t : TCB)
    (m : Machine) (cost : Nat) (p : PCB)
    (hop : imem t.pc % 256 = 37)
    (hpar : lookupPCB m.pList t.par = some p)
    (hfail : al.pcb = false ∨ al.seg = false ∨ al.tcb = false) :
    (dispatch imem al t m cost).m.pList = m.pList
    ∧ (dispatch imem al t m cost).m.ready = m.ready
    ∧ (dispatch imem al t m cost).m.sList = m.sList
    ∧ (dispatch imem al t m cost).m.nextPid = m.nextPid
    ∧ (dispatch imem al t m cost).m.nextTid = m.nextTid
    ∧ (dispatch imem al t m cost).m.output = m.output
    ∧ (dispatch imem al t m cost).m.store =
        writeCell (writeCell (writeCell m.store t.cmem t.dp 0) t.cmem (dpAdd t.dp 1) 1)
          t.cmem (dpAdd t.dp 1) 0
    ∧ (dispatch imem al t m cost).m.store t.cmem t.dp = 0
    ∧ (dispatch imem al t m cost).m.store t.cmem (dpAdd t.dp 1) = 0
    ∧ (dispatch imem al t m cost).t = { t with pc := t.pc + 1 }
    ∧ (dispatch imem al t m cost).res = DR.cont := by
  have hcp : ∀ (m2 : Machine) (copym : Nat) (npm : Option Nat)
      (nprocs : Option (Nat → Option Nat)) (npc ndp : Nat)
      (ns : Option (Nat → Nat)) (nsp : Nat),
      createProcess al m2 copym npm nprocs npc ndp ns nsp = (m2, true) := by
    intro m2 copym npm nprocs npc ndp ns nsp
    rcases hfail with h | h | h <;> simp [createProcess, h]
  have hne : dpAdd t.dp 1 ≠ t.dp := by
    unfold dpAdd DMEM
    omega
  have e : dispatch imem al t m cost =
      ⟨{ t with pc := t.pc + 1 },
       { m with store := writeCell (writeCell (writeCell m.store t.cmem t.dp 0) t.cmem
                           (dpAdd t.dp 1) 1) t.cmem (dpAdd t.dp 1) 0 },
       DR.cont, cost⟩ := by
    simp only [dispatch, hop, hpar, hcp]
    norm_num
  rw [e]
  refine ⟨rfl, rfl, rfl, rfl, rfl, rfl, rfl, ?_, ?_, rfl, rfl⟩
  · show writeCell _ t.cmem (dpAdd t.dp 1) 0 t.cmem t.dp = 0
    simp [writeCell, hne, Ne.symm hne]
  · show writeCell _ t.cmem (dpAdd t.dp 1) 0 t.cmem (dpAdd t.dp 1) = 0
    simp [writeCell]
/-- Witness for C1: a concrete spawn with, and without, a successful
allocation. -/
theorem claim1_witness :
    (dispatch imemAmp allocT tcb0 m0 1).m.ready =
        m0.ready ++ [⟨m0.nextTid, tcb0.par, tcb0.procs, tcb0.pc + 1, dpAdd tcb0.dp 1,
                      tcb0.cmem, tcb0.stack, tcb0.sp⟩]
    ∧ (dispatch imemAmp allocN tcb0 m0 1).m.ready = m0.ready :=
  ⟨(claim1_spawn_thread imemAmp tcb0 m0 1 rfl).1,
   (claim1_spawn_thread imemAmp tcb0 m0 1 rfl).2.2.2.2.2.2.1⟩

/-- Witness for C3: a down of 1 on a zero cell sleeps and parks the
thread. -/
theorem claim3_witness :
    dispatch imemDown1 allocT tcb0 m0 1 = ⟨tcb0, m0, DR.sleep, 1⟩
    ∧ afterQuanta (dispatch imemDown1 allocT tcb0 m0 1).m
        (dispatch imemDown1 allocT tcb0 m0 1).t
        (dispatch imemDown1 allocT tcb0 m0 1).res =
        { m0 with sList := m0.sList ++ [tcb0] } :=
  (claim3_down imemDown1 allocT tcb0 m0 1 rfl (by decide)).1 (by decide)

/-- Witness for C6: an up of 2 on cell (0,0) wakes the two matching
sleepers in FIFO order and leaves the mismatched one parked. -/
theorem claim6_witness :
    (dispatch imemUp2 allocT tcb0 mS 1).m.ready = [uA, uC]
    ∧ (dispatch imemUp2 allocT tcb0 mS 1).m.sList = [uB] := by
  have h := claim6_wake imemUp2 allocT tcb0 mS 1 rfl
  exact ⟨by rw [h.1]; rfl, by rw [h.2.1]; rfl⟩

/-- Witness for C9: the loop at pc 0 run on a machine whose cells hold 2. -/
theorem claim9_witness :
    stepN imemLoop allocT
        (if mw2.store tcb0.cmem tcb0.dp = 0 then 1 else 1 + 2 * mw2.store tcb0.cmem tcb0.dp)
        tcb0 mw2 1 =
      ({ tcb0 with pc := tcb0.pc + 3 },
       { mw2 with store := writeCell mw2.store tcb0.cmem tcb0.dp 0 }, 1)
    ∧ dispatch imemQuote allocT tcb0 mw2 1 =
        ⟨{ tcb0 with pc := tcb0.pc + 1 },
         { mw2 with store := writeCell mw2.store tcb0.cmem tcb0.dp 0 }, DR.cont, 1⟩
    ∧ (compileGo 20 m0 zmem src9 0).map (fun r => (List.range 3).map r.2.1) =
        some [299, 34, 64] :=
  claim9_clear_loop imemLoop imemQuote allocT allocT tcb0 mw2 1 rfl rfl rfl rfl (by decide)

/-- Witness for C10: a failed spawn-process on the primordial machine. -/
theorem claim10_witness :
    (dispatch imemPct allocN tcb0 mP 1).m.pList = mP.pList
    ∧ (dispatch imemPct allocN tcb0 mP 1).m.ready = mP.ready
    ∧ (dispatch imemPct allocN tcb0 mP 1).m.store tcb0.cmem tcb0.dp = 0
    ∧ (dispatch imemPct allocN tcb0 mP 1).m.store tcb0.cmem (dpAdd tcb0.dp 1) = 0 := by
  have h := claim10_spawn_process_failure imemPct allocN tcb0 mP 1 pcb1 rfl rfl (Or.inl rfl)
  exact ⟨h.1, h.2.1, h.2.2.2.2.2.2.2.1, h.2.2.2.2.2.2.2.2.1⟩

/-- Counterexample to C2 as stated: dispatching `#` then `+` charges the
quantum 0 and then 0, because the cost register set to 0 by `#` persists,
while the cost model asserted by the claim charges 0 and then 1 for the
same two instructions. -/
theorem claim2_counterexample :
    charges imemHash allocT 2 tcb0 m0 1 = [0, 0]
    ∧ claimCharges imemHash allocT 2 tcb0 m0 1 = [0, 1]
    ∧ charges imemHash allocT 2 tcb0 m0 1 ≠ claimCharges imemHash allocT 2 tcb0 m0 1 :=
  ⟨by decide, by decide, by decide⟩

/-- C2 (amended): every dispatch charges the current value of the cost
register: `=` sets the register to its immediate run length, `#` sets it
to 0, a byte that is not a dispatch-switch opcode and does not name a
defined procedure sets it to 0, and every other instruction charges the
register unchanged, so a charge set by `=`, `#` or an undefined call
persists until the next setting instruction. -/
theorem claim2_cost_register (imem : Nat → Nat) (al : Alloc) (t : TCB) (m : Machine)
    (cost : Nat) :
    (dispatch imem al t m cost).cost = amendedCharge imem t cost := by
  simp only [dispatch, amendedCharge]
  by_cases h43 : imem t.pc % 256 = 43
  · simp [h43, OpByte]
  by_cases h45 : imem t.pc % 256 = 45
  · simp [h45, OpByte]
  by_cases h62 : imem t.pc % 256 = 62
  · simp [h62, OpByte]
  by_cases h60 : imem t.pc % 256 = 60
  · simp [h60, OpByte]
  by_cases h46 : imem t.pc % 256 = 46
  · simp [h46, OpByte]
  by_cases h44 : imem t.pc % 256 = 44
  · simp [h44, OpByte]
  by_cases h91 : imem t.pc % 256 = 91
  · simp [h91, OpByte]
  by_cases h40 : imem t.pc % 256 = 40
  · simp [h40, OpByte]
  by_cases h125 : imem t.pc % 256 = 125
  · simp [h125, OpByte]
  by_cases h93 : imem t.pc % 256 = 93
  · simp [h93, OpByte]
  by_cases h123 : imem t.pc % 256 = 123
  · simp [h123, OpByte]
  by_cases h58 : imem t.pc % 256 = 58
  · simp [h58, OpByte]
  by_cases h124 : imem t.pc % 256 = 124
  · simp [h124, OpByte]
  by_cases h38 : imem t.pc % 256 = 38
  · simp [h38, OpByte] <;> repeat (first | rfl | split)
  by_cases h37 : imem t.pc % 256 = 37
  · simp [h37, OpByte] <;> repeat (first | rfl | split)
  by_cases h94 : imem t.pc % 256 = 94
  · simp [h94, OpByte]
  by_cases h95 : imem t.pc % 256 = 95
  · simp [h95, OpByte] <;> repeat (first | rfl | split)
  by_cases h42 : imem t.pc % 256 = 42
  · simp [h42, OpByte]
  by_cases h64 : imem t.pc % 256 = 64
  · simp [h64, OpByte]
  by_cases h41 : imem t.pc % 256 = 41
  · simp [h41, OpByte]
  by_cases h61 : imem t.pc % 256 = 61
  · simp [h61, OpByte]
  by_cases h34 : imem t.pc % 256 = 34
  · simp [h34, OpByte]
  by_cases h126 : imem t.pc % 256 = 126
  · simp [h126, OpByte] <;> repeat (first | rfl | split)
  by_cases h59 : imem t.pc % 256 = 59
  · simp [h59, OpByte] <;> repeat (first | rfl | split)
  by_cases h35 : imem t.pc % 256 = 35
  · simp [h35, OpByte]
  have hor : ¬ (imem t.pc % 256 = 91 ∨ imem t.pc % 256 = 40) := by tauto
  have hOp : ¬ OpByte (imem t.pc % 256) := by unfold OpByte; tauto
  rw [if_neg h43, if_neg h45, if_neg h62, if_neg h60, if_neg h46, if_neg h44, if_neg hor, if_neg h125, if_neg h93, if_neg h123, if_neg h58, if_neg h124, if_neg h38, if_neg h37, if_neg h94, if_neg h95, if_neg h42, if_neg h64, if_neg h41, if_neg h61, if_neg h34, if_neg h126, if_neg h59, if_neg h35, if_neg h61, if_neg h35, if_neg hOp]
  cases hpn : procNum (imem t.pc % 256) with
  | none => rfl
  | some k =>
    cases hpk : t.procs k with
    | none => simp [hpk]
    | some target =>
      simp only [hpk]
      split_ifs <;> rfl
theorem procNum_some_range (a k : Nat) (h : procNum a = some k) :
    (48 ≤ a ∧ a ≤ 57) ∨ (65 ≤ a ∧ a ≤ 90) ∨ (97 ≤ a ∧ a ≤ 122) := by
  unfold procNum at h
  split_ifs at h <;> tauto

/-- The procedure-call default case of the dispatch switch, for a byte
that names a defined procedure: a tail call when the next word is `;` or
`$`, a skipped call when the stack is full, and a push otherwise. -/
theorem dispatch_call (imem : Nat → Nat) (al : Alloc) (t : TCB) (m : Machine) (cost : Nat)
    (k target : Nat)
    (hpn : procNum (imem t.pc % 256) = some k)
    (hpk : t.procs k = some target) :
    dispatch imem al t m cost =
      (if imem (t.pc + 1) = 59 ∨ imem (t.pc + 1) = 36 then
        ⟨{ t with pc := target }, m, DR.cont, cost⟩
      else if t.sp = 0 then ⟨{ t with pc := t.pc + 1 }, m, DR.cont, cost⟩
      else ⟨{ t with pc := target, sp := t.sp - 1,
                     stack := fun j => if j = t.sp - 1 then t.pc + 1 else t.stack j },
            m, DR.cont, cost⟩) := by
  have hr := procNum_some_range _ _ hpn
  simp only [dispatch]
  rw [if_neg (show ¬ (imem t.pc % 256 = 43) by omega)]
  rw [if_neg (show ¬ (imem t.pc % 256 = 45) by omega)]
  rw [if_neg (show ¬ (imem t.pc % 256 = 62) by omega)]
  rw [if_neg (show ¬ (imem t.pc % 256 = 60) by omega)]
  rw [if_neg (show ¬ (imem t.pc % 256 = 46) by omega)]
  rw [if_neg (show ¬ (imem t.pc % 256 = 44) by omega)]
  rw [if_neg (show ¬ (imem t.pc % 256 = 91 ∨ imem t.pc % 256 = 40) by omega)]
  rw [if_neg (show ¬ (imem t.pc % 256 = 125) by omega)]
  rw [if_neg (show ¬ (imem t.pc % 256 = 93) by omega)]
  rw [if_neg (show ¬ (imem t.pc % 256 = 123) by omega)]
  rw [if_neg (show ¬ (imem t.pc % 256 = 58) by omega)]
  rw [if_neg (show ¬ (imem t.pc % 256 = 124) by omega)]
  rw [if_neg (show ¬ (imem t.pc % 256 = 38) by omega)]
  rw [if_neg (show ¬ (imem t.pc % 256 = 37) by omega)]
  rw [if_neg (show ¬ (imem t.pc % 256 = 94) by omega)]
  rw [if_neg (show ¬ (imem t.pc % 256 = 95) by omega)]
  rw [if_neg (show ¬ (imem t.pc % 256 = 42) by omega)]
  rw [if_neg (show ¬ (imem t.pc % 256 = 64) by omega)]
  rw [if_neg (show ¬ (imem t.pc % 256 = 41) by omega)]
  rw [if_neg (show ¬ (imem t.pc % 256 = 61) by omega)]
  rw [if_neg (show ¬ (imem t.pc % 256 = 34) by omega)]
  rw [if_neg (show ¬ (imem t.pc % 256 = 126) by omega)]
  rw [if_neg (show ¬ (imem t.pc % 256 = 59) by omega)]
  rw [if_neg (show ¬ (imem t.pc % 256 = 35) by omega)]
  simp only [hpn, hpk]

/-- C5: a call to a defined procedure whose immediately following
instruction word is `;` (or `$`, which the compiler rewrites to `;`, as
the compilation of `:A+;A$` shows: its `$` emits word 59) jumps to the
procedure body without pushing a return address, leaving the stack pointer
and the call stack unchanged; consequently a self tail call runs any
number of dispatches in constant stack space, the whole state being
reproduced exactly. -/
theorem claim5_tail_call :
    (∀ (imem : Nat → Nat) (al : Alloc) (t : TCB) (m : Machine) (cost : Nat) (k target : Nat),
      procNum (imem t.pc % 256) = some k →
      t.procs k = some target →
      (imem (t.pc + 1) = 59 ∨ imem (t.pc + 1) = 36) →
      dispatch imem al t m cost = ⟨{ t with pc := target }, m, DR.cont, cost⟩)
    ∧ (∀ (k : Nat) (m : Machine) (cost : Nat), stepN imTail allocT k t5 m cost = (t5, m, cost))
    ∧ (compileGo 20 m0 zmem src5 0).map (fun r => (List.range 7).map r.2.1) =
        some [826, 65, 299, 59, 65, 59, 64] := by
  refine ⟨?_, ?_, by decide⟩
  · intro imem al t m cost k target hpn hpk htail
    rw [dispatch_call imem al t m cost k target hpn hpk, if_pos htail]
  · intro k
    induction k with
    | zero => intro m cost; rfl
    | succ n ih =>
      intro m cost
      show stepN imTail allocT n (dispatch imTail allocT t5 m cost).t
        (dispatch imTail allocT t5 m cost).m (dispatch imTail allocT t5 m cost).cost = _
      have e : dispatch imTail allocT t5 m cost = ⟨t5, m, DR.cont, cost⟩ := rfl
      rw [e]
      exact ih m cost

/-- Witness for C5: the tail call of `imTail` and a 1000-dispatch run. -/
theorem claim5_witness :
    dispatch imTail allocT t5 m0 1 = ⟨{ t5 with pc := 0 }, m0, DR.cont, 1⟩
    ∧ stepN imTail allocT 1000 t5 m0 1 = (t5, m0, 1) :=
  ⟨claim5_tail_call.1 imTail allocT t5 m0 1 10 0 rfl rfl (Or.inl rfl),
   claim5_tail_call.2.1 1000 m0 1⟩
theorem dispatch_TInv (imem : Nat → Nat) (al : Alloc) (t : TCB) (m : Machine) (cost : Nat)
    (hsp : t.sp ≤ STACKSIZE) (hdp : t.dp < DMEM) :
    TInv (dispatch imem al t m cost).t := by
  have hsp2 : t.sp ≤ 1024 := hsp
  have hdp2 : t.dp < 65536 := hdp
  simp only [dispatch]
  by_cases h43 : imem t.pc % 256 = 43
  · simp [h43, TInv, STACKSIZE, DMEM, dpAdd, dpSub, createThread, createProcess] <;>
      repeat split
    all_goals try simp_all [TInv, STACKSIZE, DMEM, dpAdd, dpSub]
    all_goals try (repeat split)
    all_goals try simp_all [TInv, STACKSIZE, DMEM, dpAdd, dpSub]
    all_goals omega
  by_cases h45 : imem t.pc % 256 = 45
  · simp [h45, TInv, STACKSIZE, DMEM, dpAdd, dpSub, createThread, createProcess] <;>
      repeat split
    all_goals try simp_all [TInv, STACKSIZE, DMEM, dpAdd, dpSub]
    all_goals try (repeat split)
    all_goals try simp_all [TInv, STACKSIZE, DMEM, dpAdd, dpSub]
    all_goals omega
  by_cases h62 : imem t.pc % 256 = 62
  · simp [h62, TInv, STACKSIZE, DMEM, dpAdd, dpSub, createThread, createProcess] <;>
      repeat split
    all_goals try simp_all [TInv, STACKSIZE, DMEM, dpAdd, dpSub]
    all_goals try (repeat split)
    all_goals try simp_all [TInv, STACKSIZE, DMEM, dpAdd, dpSub]
    all_goals omega
  by_cases h60 : imem t.pc % 256 = 60
  · simp [h60, TInv, STACKSIZE, DMEM, dpAdd, dpSub, createThread, createProcess] <;>
      repeat split
    all_goals try simp_all [TInv, STACKSIZE, DMEM, dpAdd, dpSub]
    all_goals try (repeat split)
    all_goals try simp_all [TInv, STACKSIZE, DMEM, dpAdd, dpSub]
    all_goals omega
  by_cases h46 : imem t.pc % 256 = 46
  · simp [h46, TInv, STACKSIZE, DMEM, dpAdd, dpSub, createThread, createProcess] <;>
      repeat split
    all_goals try simp_all [TInv, STACKSIZE, DMEM, dpAdd, dpSub]
    all_goals try (repeat split)
    all_goals try simp_all [TInv, STACKSIZE, DMEM, dpAdd, dpSub]
    all_goals omega
  by_cases h44 : imem t.pc % 256 = 44
  · simp [h44, TInv, STACKSIZE, DMEM, dpAdd, dpSub, createThread, createProcess] <;>
      repeat split
    all_goals try simp_all [TInv, STACKSIZE, DMEM, dpAdd, dpSub]
    all_goals try (repeat split)
    all_goals try simp_all [TInv, STACKSIZE, DMEM, dpAdd, dpSub]
    all_goals omega
  by_cases h91 : imem t.pc % 256 = 91
  · simp [h91, TInv, STACKSIZE, DMEM, dpAdd, dpSub, createThread, createProcess] <;>
      repeat split
    all_goals try simp_all [TInv, STACKSIZE, DMEM, dpAdd, dpSub]
    all_goals try (repeat split)
    all_goals try simp_all [TInv, STACKSIZE, DMEM, dpAdd, dpSub]
    all_goals omega
  by_cases h40 : imem t.pc % 256 = 40
  · simp [h40, TInv, STACKSIZE, DMEM, dpAdd, dpSub, createThread, createProcess] <;>
      repeat split
    all_goals try simp_all [TInv, STACKSIZE, DMEM, dpAdd, dpSub]
    all_goals try (repeat split)
    all_goals try simp_all [TInv, STACKSIZE, DMEM, dpAdd, dpSub]
    all_goals omega
  by_cases h125 : imem t.pc % 256 = 125
  · simp [h125, TInv, STACKSIZE, DMEM, dpAdd, dpSub, createThread, createProcess] <;>
      repeat split
    all_goals try simp_all [TInv, STACKSIZE, DMEM, dpAdd, dpSub]
    all_goals try (repeat split)
    all_goals try simp_all [TInv, STACKSIZE, DMEM, dpAdd, dpSub]
    all_goals omega
  by_cases h93 : imem t.pc % 256 = 93
  · simp [h93, TInv, STACKSIZE, DMEM, dpAdd, dpSub, createThread, createProcess] <;>
      repeat split
    all_goals try simp_all [TInv, STACKSIZE, DMEM, dpAdd, dpSub]
    all_goals try (repeat split)
    all_goals try simp_all [TInv, STACKSIZE, DMEM, dpAdd, dpSub]
    all_goals omega
  by_cases h123 : imem t.pc % 256 = 123
  · simp [h123, TInv, STACKSIZE, DMEM, dpAdd, dpSub, createThread, createProcess] <;>
      repeat split
    all_goals try simp_all [TInv, STACKSIZE, DMEM, dpAdd, dpSub]
    all_goals try (repeat split)
    all_goals try simp_all [TInv, STACKSIZE, DMEM, dpAdd, dpSub]
    all_goals omega
  by_cases h58 : imem t.pc % 256 = 58
  · simp [h58, TInv, STACKSIZE, DMEM, dpAdd, dpSub, createThread, createProcess] <;>
      repeat split
    all_goals try simp_all [TInv, STACKSIZE, DMEM, dpAdd, dpSub]
    all_goals try (repeat split)
    all_goals try simp_all [TInv, STACKSIZE, DMEM, dpAdd, dpSub]
    all_goals omega
  by_cases h124 : imem t.pc % 256 = 124
  · simp [h124, TInv, STACKSIZE, DMEM, dpAdd, dpSub, createThread, createProcess] <;>
      repeat split
    all_goals try simp_all [TInv, STACKSIZE, DMEM, dpAdd, dpSub]
    all_goals try (repeat split)
    all_goals try simp_all [TInv, STACKSIZE, DMEM, dpAdd, dpSub]
    all_goals omega
  by_cases h38 : imem t.pc % 256 = 38
  · simp [h38, TInv, STACKSIZE, DMEM, dpAdd, dpSub, createThread, createProcess] <;>
      repeat split
    all_goals try simp_all [TInv, STACKSIZE, DMEM, dpAdd, dpSub]
    all_goals try (repeat split)
    all_goals try simp_all [TInv, STACKSIZE, DMEM, dpAdd, dpSub]
    all_goals omega
  by_cases h37 : imem t.pc % 256 = 37
  · simp [h37, TInv, STACKSIZE, DMEM, dpAdd, dpSub, createThread, createProcess] <;>
      repeat split
    all_goals try simp_all [TInv, STACKSIZE, DMEM, dpAdd, dpSub]
    all_goals try (repeat split)
    all_goals try simp_all [TInv, STACKSIZE, DMEM, dpAdd, dpSub]
    all_goals omega
  by_cases h94 : imem t.pc % 256 = 94
  · simp [h94, TInv, STACKSIZE, DMEM, dpAdd, dpSub, createThread, createProcess] <;>
      repeat split
    all_goals try simp_all [TInv, STACKSIZE, DMEM, dpAdd, dpSub]
    all_goals try (repeat split)
    all_goals try simp_all [TInv, STACKSIZE, DMEM, dpAdd, dpSub]
    all_goals omega
  by_cases h95 : imem t.pc % 256 = 95
  · simp [h95, TInv, STACKSIZE, DMEM, dpAdd, dpSub, createThread, createProcess] <;>
      repeat split
    all_goals try simp_all [TInv, STACKSIZE, DMEM, dpAdd, dpSub]
    all_goals try (repeat split)
    all_goals try simp_all [TInv, STACKSIZE, DMEM, dpAdd, dpSub]
    all_goals omega
  by_cases h42 : imem t.pc % 256 = 42
  · simp [h42, TInv, STACKSIZE, DMEM, dpAdd, dpSub, createThread, createProcess] <;>
      repeat split
    all_goals try simp_all [TInv, STACKSIZE, DMEM, dpAdd, dpSub]
    all_goals try (repeat split)
    all_goals try simp_all [TInv, STACKSIZE, DMEM, dpAdd, dpSub]
    all_goals omega
  by_cases h64 : imem t.pc % 256 = 64
  · simp [h64, TInv, STACKSIZE, DMEM, dpAdd, dpSub, createThread, createProcess] <;>
      repeat split
    all_goals try simp_all [TInv, STACKSIZE, DMEM, dpAdd, dpSub]
    all_goals try (repeat split)
    all_goals try simp_all [TInv, STACKSIZE, DMEM, dpAdd, dpSub]
    all_goals omega
  by_cases h41 : imem t.pc % 256 = 41
  · simp [h41, TInv, STACKSIZE, DMEM, dpAdd, dpSub, createThread, createProcess] <;>
      repeat split
    all_goals try simp_all [TInv, STACKSIZE, DMEM, dpAdd, dpSub]
    all_goals try (repeat split)
    all_goals try simp_all [TInv, STACKSIZE, DMEM, dpAdd, dpSub]
    all_goals omega
  by_cases h61 : imem t.pc % 256 = 61
  · simp [h61, TInv, STACKSIZE, DMEM, dpAdd, dpSub, createThread, createProcess] <;>
      repeat split
    all_goals try simp_all [TInv, STACKSIZE, DMEM, dpAdd, dpSub]
    all_goals try (repeat split)
    all_goals try simp_all [TInv, STACKSIZE, DMEM, dpAdd, dpSub]
    all_goals omega
  by_cases h34 : imem t.pc % 256 = 34
  · simp [h34, TInv, STACKSIZE, DMEM, dpAdd, dpSub, createThread, createProcess] <;>
      repeat split
    all_goals try simp_all [TInv, STACKSIZE, DMEM, dpAdd, dpSub]
    all_goals try (repeat split)
    all_goals try simp_all [TInv, STACKSIZE, DMEM, dpAdd, dpSub]
    all_goals omega
  by_cases h126 : imem t.pc % 256 = 126
  · simp [h126, TInv, STACKSIZE, DMEM, dpAdd, dpSub, createThread, createProcess] <;>
      repeat split
    all_goals try simp_all [TInv, STACKSIZE, DMEM, dpAdd, dpSub]
    all_goals try (repeat split)
    all_goals try simp_all [TInv, STACKSIZE, DMEM, dpAdd, dpSub]
    all_goals omega
  by_cases h59 : imem t.pc % 256 = 59
  · simp [h59, TInv, STACKSIZE, DMEM, dpAdd, dpSub, createThread, createProcess] <;>
      repeat split
    all_goals try simp_all [TInv, STACKSIZE, DMEM, dpAdd, dpSub]
    all_goals try (repeat split)
    all_goals try simp_all [TInv, STACKSIZE, DMEM, dpAdd, dpSub]
    all_goals omega
  by_cases h35 : imem t.pc % 256 = 35
  · simp [h35, TInv, STACKSIZE, DMEM, dpAdd, dpSub, createThread, createProcess] <;>
      repeat split
    all_goals try simp_all [TInv, STACKSIZE, DMEM, dpAdd, dpSub]
    all_goals try (repeat split)
    all_goals try simp_all [TInv, STACKSIZE, DMEM, dpAdd, dpSub]
    all_goals omega
  rw [if_neg (show ¬ (imem t.pc % 256 = 43) by tauto)]
  rw [if_neg (show ¬ (imem t.pc % 256 = 45) by tauto)]
  rw [if_neg (show ¬ (imem t.pc % 256 = 62) by tauto)]
  rw [if_neg (show ¬ (imem t.pc % 256 = 60) by tauto)]
  rw [if_neg (show ¬ (imem t.pc % 256 = 46) by tauto)]
  rw [if_neg (show ¬ (imem t.pc % 256 = 44) by tauto)]
  rw [if_neg (show ¬ (imem t.pc % 256 = 91 ∨ imem t.pc % 256 = 40) by tauto)]
  rw [if_neg (show ¬ (imem t.pc % 256 = 125) by tauto)]
  rw [if_neg (show ¬ (imem t.pc % 256 = 93) by tauto)]
  rw [if_neg (show ¬ (imem t.pc % 256 = 123) by tauto)]
  rw [if_neg (show ¬ (imem t.pc % 256 = 58) by tauto)]
  rw [if_neg (show ¬ (imem t.pc % 256 = 124) by tauto)]
  rw [if_neg (show ¬ (imem t.pc % 256 = 38) by tauto)]
  rw [if_neg (show ¬ (imem t.pc % 256 = 37) by tauto)]
  rw [if_neg (show ¬ (imem t.pc % 256 = 94) by tauto)]
  rw [if_neg (show ¬ (imem t.pc % 256 = 95) by tauto)]
  rw [if_neg (show ¬ (imem t.pc % 256 = 42) by tauto)]
  rw [if_neg (show ¬ (imem t.pc % 256 = 64) by tauto)]
  rw [if_neg (show ¬ (imem t.pc % 256 = 41) by tauto)]
  rw [if_neg (show ¬ (imem t.pc % 256 = 61) by tauto)]
  rw [if_neg (show ¬ (imem t.pc % 256 = 34) by tauto)]
  rw [if_neg (show ¬ (imem t.pc % 256 = 126) by tauto)]
  rw [if_neg (show ¬ (imem t.pc % 256 = 59) by tauto)]
  rw [if_neg (show ¬ (imem t.pc % 256 = 35) by tauto)]
  cases hpn : procNum (imem t.pc % 256) with
  | none => exact ⟨hsp, hdp⟩
  | some k =>
    cases hpk : t.procs k with
    | none => simp [hpk, TInv, STACKSIZE, DMEM] <;> omega
    | some target =>
      simp only [hpk]
      split_ifs <;> simp [TInv, STACKSIZE, DMEM] <;> omega

theorem dispatch_ready_mem (imem : Nat → Nat) (al : Alloc) (t : TCB) (m : Machine)
    (cost : Nat) (hsp : t.sp ≤ STACKSIZE) (hdp : t.dp < DMEM) :
    ∀ u, u ∈ (dispatch imem al t m cost).m.ready →
      u ∈ m.ready ∨ u ∈ m.sList ∨ TInv u := by
  intro u hu
  simp only [dispatch] at hu
  by_cases h43 : imem t.pc % 256 = 43
  · simp [h43] at hu
    repeat (first | (exact Or.inl hu) | (split at hu) | (simp at hu))
  by_cases h45 : imem t.pc % 256 = 45
  · simp [h45] at hu
    repeat (first | (exact Or.inl hu) | (split at hu) | (simp at hu))
  by_cases h62 : imem t.pc % 256 = 62
  · simp [h62] at hu
    repeat (first | (exact Or.inl hu) | (split at hu) | (simp at hu))
  by_cases h60 : imem t.pc % 256 = 60
  · simp [h60] at hu
    repeat (first | (exact Or.inl hu) | (split at hu) | (simp at hu))
  by_cases h46 : imem t.pc % 256 = 46
  · simp [h46] at hu
    repeat (first | (exact Or.inl hu) | (split at hu) | (simp at hu))
  by_cases h44 : imem t.pc % 256 = 44
  · simp [h44] at hu
    repeat (first | (exact Or.inl hu) | (split at hu) | (simp at hu))
  by_cases h91 : imem t.pc % 256 = 91
  · simp [h91] at hu
    repeat (first | (exact Or.inl hu) | (split at hu) | (simp at hu))
  by_cases h40 : imem t.pc % 256 = 40
  · simp [h40] at hu
    repeat (first | (exact Or.inl hu) | (split at hu) | (simp at hu))
  by_cases h125 : imem t.pc % 256 = 125
  · simp [h125] at hu
    repeat (first | (exact Or.inl hu) | (split at hu) | (simp at hu))
  by_cases h93 : imem t.pc % 256 = 93
  · simp [h93] at hu
    repeat (first | (exact Or.inl hu) | (split at hu) | (simp at hu))
  by_cases h123 : imem t.pc % 256 = 123
  · simp [h123] at hu
    repeat (first | (exact Or.inl hu) | (split at hu) | (simp at hu))
  by_cases h58 : imem t.pc % 256 = 58
  · simp [h58] at hu
    repeat (first | (exact Or.inl hu) | (split at hu) | (simp at hu))
  by_cases h124 : imem t.pc % 256 = 124
  · simp [h124] at hu
    repeat (first | (exact Or.inl hu) | (split at hu) | (simp at hu))
  by_cases h95 : imem t.pc % 256 = 95
  · simp [h95] at hu
    repeat (first | (exact Or.inl hu) | (split at hu) | (simp at hu))
  by_cases h42 : imem t.pc % 256 = 42
  · simp [h42] at hu
    repeat (first | (exact Or.inl hu) | (split at hu) | (simp at hu))
  by_cases h64 : imem t.pc % 256 = 64
  · simp [h64] at hu
    repeat (first | (exact Or.inl hu) | (split at hu) | (simp at hu))
  by_cases h41 : imem t.pc % 256 = 41
  · simp [h41] at hu
    repeat (first | (exact Or.inl hu) | (split at hu) | (simp at hu))
  by_cases h61 : imem t.pc % 256 = 61
  · simp [h61] at hu
    repeat (first | (exact Or.inl hu) | (split at hu) | (simp at hu))
  by_cases h34 : imem t.pc % 256 = 34
  · simp [h34] at hu
    repeat (first | (exact Or.inl hu) | (split at hu) | (simp at hu))
  by_cases h126 : imem t.pc % 256 = 126
  · simp [h126] at hu
    repeat (first | (exact Or.inl hu) | (split at hu) | (simp at hu))
  by_cases h59 : imem t.pc % 256 = 59
  · simp [h59] at hu
    repeat (first | (exact Or.inl hu) | (split at hu) | (simp at hu))
  by_cases h35 : imem t.pc % 256 = 35
  · simp [h35] at hu
    repeat (first | (exact Or.inl hu) | (split at hu) | (simp at hu))
  by_cases h38 : imem t.pc % 256 = 38
  · cases hat : al.tcb <;> simp [h38, createThread, hat] at hu
    · exact Or.inl hu
    · rcases hu with h | rfl
      · exact Or.inl h
      · exact Or.inr (Or.inr ⟨hsp, show dpAdd t.dp 1 < DMEM by unfold dpAdd DMEM; omega⟩)
  by_cases h37 : imem t.pc % 256 = 37
  · cases hlk : lookupPCB m.pList t.par <;>
      cases hap : al.pcb <;> cases has2 : al.seg <;> cases hat : al.tcb <;>
      simp [h37, hlk, createProcess, hap, has2, hat] at hu <;>
      first
        | exact Or.inl hu
        | (rcases hu with h | rfl
           · exact Or.inl h
           · exact Or.inr (Or.inr ⟨hsp, show dpAdd t.dp 1 < DMEM by unfold dpAdd DMEM; omega⟩))
  by_cases h94 : imem t.pc % 256 = 94
  · simp [h94, wakeRounds_eq] at hu
    rcases hu with h | h
    · exact Or.inl h
    · exact Or.inr (Or.inl (List.mem_of_mem_filter (List.mem_of_mem_take h)))
  rw [if_neg (show ¬ (imem t.pc % 256 = 43) by tauto)] at hu
  rw [if_neg (show ¬ (imem t.pc % 256 = 45) by tauto)] at hu
  rw [if_neg (show ¬ (imem t.pc % 256 = 62) by tauto)] at hu
  rw [if_neg (show ¬ (imem t.pc % 256 = 60) by tauto)] at hu
  rw [if_neg (show ¬ (imem t.pc % 256 = 46) by tauto)] at hu
  rw [if_neg (show ¬ (imem t.pc % 256 = 44) by tauto)] at hu
  rw [if_neg (show ¬ (imem t.pc % 256 = 91 ∨ imem t.pc % 256 = 40) by tauto)] at hu
  rw [if_neg (show ¬ (imem t.pc % 256 = 125) by tauto)] at hu
  rw [if_neg (show ¬ (imem t.pc % 256 = 93) by tauto)] at hu
  rw [if_neg (show ¬ (imem t.pc % 256 = 123) by tauto)] at hu
  rw [if_neg (show ¬ (imem t.pc % 256 = 58) by tauto)] at hu
  rw [if_neg (show ¬ (imem t.pc % 256 = 124) by tauto)] at hu
  rw [if_neg (show ¬ (imem t.pc % 256 = 38) by tauto)] at hu
  rw [if_neg (show ¬ (imem t.pc % 256 = 37) by tauto)] at hu
  rw [if_neg (show ¬ (imem t.pc % 256 = 94) by tauto)] at hu
  rw [if_neg (show ¬ (imem t.pc % 256 = 95) by tauto)] at hu
  rw [if_neg (show ¬ (imem t.pc % 256 = 42) by tauto)] at hu
  rw [if_neg (show ¬ (imem t.pc % 256 = 64) by tauto)] at hu
  rw [if_neg (show ¬ (imem t.pc % 256 = 41) by tauto)] at hu
  rw [if_neg (show ¬ (imem t.pc % 256 = 61) by tauto)] at hu
  rw [if_neg (show ¬ (imem t.pc % 256 = 34) by tauto)] at hu
  rw [if_neg (show ¬ (imem t.pc % 256 = 126) by tauto)] at hu
  rw [if_neg (show ¬ (imem t.pc % 256 = 59) by tauto)] at hu
  rw [if_neg (show ¬ (imem t.pc % 256 = 35) by tauto)] at hu
  cases hpn : procNum (imem t.pc % 256) with
  | none => simp [hpn] at hu; exact Or.inl hu
  | some k =>
    cases hpk : t.procs k with
    | none => simp [hpn, hpk] at hu; exact Or.inl hu
    | some target =>
      simp only [hpn, hpk] at hu
      split_ifs at hu <;> simp at hu <;> exact Or.inl hu

theorem dispatch_sList_mem (imem : Nat → Nat) (al : Alloc) (t : TCB) (m : Machine)
    (cost : Nat) :
    ∀ u, u ∈ (dispatch imem al t m cost).m.sList → u ∈ m.sList := by
  intro u hu
  simp only [dispatch] at hu
  by_cases hs43 : imem t.pc % 256 = 43
  · simp [hs43] at hu
    repeat (first | (exact hu) | (split at hu) | (simp at hu))
  by_cases hs45 : imem t.pc % 256 = 45
  · simp [hs45] at hu
    repeat (first | (exact hu) | (split at hu) | (simp at hu))
  by_cases hs62 : imem t.pc % 256 = 62
  · simp [hs62] at hu
    repeat (first | (exact hu) | (split at hu) | (simp at hu))
  by_cases hs60 : imem t.pc % 256 = 60
  · simp [hs60] at hu
    repeat (first | (exact hu) | (split at hu) | (simp at hu))
  by_cases hs46 : imem t.pc % 256 = 46
  · simp [hs46] at hu
    repeat (first | (exact hu) | (split at hu) | (simp at hu))
  by_cases hs44 : imem t.pc % 256 = 44
  · simp [hs44] at hu
    repeat (first | (exact hu) | (split at hu) | (simp at hu))
  by_cases hs91 : imem t.pc % 256 = 91
  · simp [hs91] at hu
    repeat (first | (exact hu) | (split at hu) | (simp at hu))
  by_cases hs40 : imem t.pc % 256 = 40
  · simp [hs40] at hu
    repeat (first | (exact hu) | (split at hu) | (simp at hu))
  by_cases hs125 : imem t.pc % 256 = 125
  · simp [hs125] at hu
    repeat (first | (exact hu) | (split at hu) | (simp at hu))
  by_cases hs93 : imem t.pc % 256 = 93
  · simp [hs93] at hu
    repeat (first | (exact hu) | (split at hu) | (simp at hu))
  by_cases hs123 : imem t.pc % 256 = 123
  · simp [hs123] at hu
    repeat (first | (exact hu) | (split at hu) | (simp at hu))
  by_cases hs58 : imem t.pc % 256 = 58
  · simp [hs58] at hu
    repeat (first | (exact hu) | (split at hu) | (simp at hu))
  by_cases hs124 : imem t.pc % 256 = 124
  · simp [hs124] at hu
    repeat (first | (exact hu) | (split at hu) | (simp at hu))
  by_cases hs95 : imem t.pc % 256 = 95
  · simp [hs95] at hu
    repeat (first | (exact hu) | (split at hu) | (simp at hu))
  by_cases hs42 : imem t.pc % 256 = 42
  · simp [hs42] at hu
    repeat (first | (exact hu) | (split at hu) | (simp at hu))
  by_cases hs64 : imem t.pc % 256 = 64
  · simp [hs64] at hu
    repeat (first | (exact hu) | (split at hu) | (simp at hu))
  by_cases hs41 : imem t.pc % 256 = 41
  · simp [hs41] at hu
    repeat (first | (exact hu) | (split at hu) | (simp at hu))
  by_cases hs61 : imem t.pc % 256 = 61
  · simp [hs61] at hu
    repeat (first | (exact hu) | (split at hu) | (simp at hu))
  by_cases hs34 : imem t.pc % 256 = 34
  · simp [hs34] at hu
    repeat (first | (exact hu) | (split at hu) | (simp at hu))
  by_cases hs126 : imem t.pc % 256 = 126
  · simp [hs126] at hu
    repeat (first | (exact hu) | (split at hu) | (simp at hu))
  by_cases hs59 : imem t.pc % 256 = 59
  · simp [hs59] at hu
    repeat (first | (exact hu) | (split at hu) | (simp at hu))
  by_cases hs35 : imem t.pc % 256 = 35
  · simp [hs35] at hu
    repeat (first | (exact hu) | (split at hu) | (simp at hu))
  by_cases hs38 : imem t.pc % 256 = 38
  · cases hat : al.tcb <;> simp [hs38, createThread, hat] at hu <;> exact hu
  by_cases hs37 : imem t.pc % 256 = 37
  · cases hlk : lookupPCB m.pList t.par <;>
      cases hap : al.pcb <;> cases has2 : al.seg <;> cases hat : al.tcb <;>
      simp [hs37, hlk, createProcess, hap, has2, hat] at hu <;> exact hu
  by_cases hs94 : imem t.pc % 256 = 94
  · simp [hs94, wakeRounds_eq] at hu
    exact (iterate_eraseP_sublist (pMatch t.cmem t.dp) (imem t.pc / 256) m.sList).subset hu
  rw [if_neg (show ¬ (imem t.pc % 256 = 43) by tauto)] at hu
  rw [if_neg (show ¬ (imem t.pc % 256 = 45) by tauto)] at hu
  rw [if_neg (show ¬ (imem t.pc % 256 = 62) by tauto)] at hu
  rw [if_neg (show ¬ (imem t.pc % 256 = 60) by tauto)] at hu
  rw [if_neg (show ¬ (imem t.pc % 256 = 46) by tauto)] at hu
  rw [if_neg (show ¬ (imem t.pc % 256 = 44) by tauto)] at hu
  rw [if_neg (show ¬ (imem t.pc % 256 = 91 ∨ imem t.pc % 256 = 40) by tauto)] at hu
  rw [if_neg (show ¬ (imem t.pc % 256 = 125) by tauto)] at hu
  rw [if_neg (show ¬ (imem t.pc % 256 = 93) by tauto)] at hu
  rw [if_neg (show ¬ (imem t.pc % 256 = 123) by tauto)] at hu
  rw [if_neg (show ¬ (imem t.pc % 256 = 58) by tauto)] at hu
  rw [if_neg (show ¬ (imem t.pc % 256 = 124) by tauto)] at hu
  rw [if_neg (show ¬ (imem t.pc % 256 = 38) by tauto)] at hu
  rw [if_neg (show ¬ (imem t.pc % 256 = 37) by tauto)] at hu
  rw [if_neg (show ¬ (imem t.pc % 256 = 94) by tauto)] at hu
  rw [if_neg (show ¬ (imem t.pc % 256 = 95) by tauto)] at hu
  rw [if_neg (show ¬ (imem t.pc % 256 = 42) by tauto)] at hu
  rw [if_neg (show ¬ (imem t.pc % 256 = 64) by tauto)] at hu
  rw [if_neg (show ¬ (imem t.pc % 256 = 41) by tauto)] at hu
  rw [if_neg (show ¬ (imem t.pc % 256 = 61) by tauto)] at hu
  rw [if_neg (show ¬ (imem t.pc % 256 = 34) by tauto)] at hu
  rw [if_neg (show ¬ (imem t.pc % 256 = 126) by tauto)] at hu
  rw [if_neg (show ¬ (imem t.pc % 256 = 59) by tauto)] at hu
  rw [if_neg (show ¬ (imem t.pc % 256 = 35) by tauto)] at hu
  cases hpn : procNum (imem t.pc % 256) with
  | none => simp [hpn] at hu; exact hu
  | some k =>
    cases hpk : t.procs k with
    | none => simp [hpn, hpk] at hu; exact hu
    | some target =>
      simp only [hpn, hpk] at hu
      split_ifs at hu <;> simp at hu <;> exact hu

/-- C7: after any single dispatch from a thread with sp ≤ STACKSIZE and
dp < DMEM, the dispatched thread again satisfies both bounds; every thread
on the resulting run queue was already queued, was asleep, or is a newly
created thread satisfying both bounds (spawn masks the new data pointer
modulo DMEM); the sleep list only loses threads; a `;` with
sp = STACKSIZE kills the thread instead of popping; and a call to a
defined procedure with sp = 0 skips the push, leaving stack and stack
pointer untouched while the pc moves past the call. -/
theorem claim7_invariants (imem : Nat → Nat) (al : Alloc) (t : TCB) (m : Machine)
    (cost : Nat) (hsp : t.sp ≤ STACKSIZE) (hdp : t.dp < DMEM) :
    TInv (dispatch imem al t m cost).t
    ∧ (∀ u, u ∈ (dispatch imem al t m cost).m.ready → u ∈ m.ready ∨ u ∈ m.sList ∨ TInv u)
    ∧ (∀ u, u ∈ (dispatch imem al t m cost).m.sList → u ∈ m.sList)
    ∧ (imem t.pc % 256 = 59 → t.sp = STACKSIZE →
        (dispatch imem al t m cost).res = DR.die
        ∧ (dispatch imem al t m cost).t.sp = t.sp
        ∧ (dispatch imem al t m cost).t.stack = t.stack)
    ∧ (∀ k target, procNum (imem t.pc % 256) = some k → t.procs k = some target →
        t.sp = 0 → ¬ (imem (t.pc + 1) = 59 ∨ imem (t.pc + 1) = 36) →
        (dispatch imem al t m cost).t.stack = t.stack
        ∧ (dispatch imem al t m cost).t.sp = 0
        ∧ (dispatch imem al t m cost).t.pc = t.pc + 1) := by
  refine ⟨dispatch_TInv imem al t m cost hsp hdp,
          dispatch_ready_mem imem al t m cost hsp hdp,
          dispatch_sList_mem imem al t m cost, ?_, ?_⟩
  · intro h59 hss
    simp only [dispatch, h59]
    norm_num
    rw [if_pos hss]
    exact ⟨rfl, rfl, rfl⟩
  · intro k target hpn hpk h0 hnt
    rw [dispatch_call imem al t m cost k target hpn hpk, if_neg hnt, if_pos h0]
    exact ⟨rfl, h0, rfl⟩

/-- Witness for C7 at a concrete spawn instruction. -/
theorem claim7_witness :
    TInv (dispatch imemAmp allocT tcb0 m0 1).t
    ∧ (dispatch (fun _ => 59) allocT tcb0 m0 1).res = DR.die := by
  have h := claim7_invariants imemAmp allocT tcb0 m0 1 (by decide) (by decide)
  have h2 := claim7_invariants (fun _ => 59) allocT tcb0 m0 1 (by decide) (by decide)
  exact ⟨h.1, (h2.2.2.2.1 rfl rfl).1⟩
theorem backFillGo_out (e : Nat) :
    ∀ (k : Nat) (mem : Nat → Nat) (i j : Nat), j < i ∨ i + k ≤ j →
      backFillGo e k mem i j = mem j := by
  intro k
  induction k with
  | zero => intro mem i j h; rfl
  | succ n ih =>
    intro mem i j h
    show backFillGo e n (upd mem i (bfWord e i (mem i))) (i + 1) j = mem j
    rw [ih _ _ _ (by omega)]
    unfold upd
    rw [if_neg (by omega)]

theorem backFillGo_in (e : Nat) :
    ∀ (k : Nat) (mem : Nat → Nat) (i j : Nat), i ≤ j → j < i + k →
      backFillGo e k mem i j = bfWord e j (mem j) := by
  intro k
  induction k with
  | zero => intro mem i j h1 h2; omega
  | succ n ih =>
    intro mem i j h1 h2
    show backFillGo e n (upd mem i (bfWord e i (mem i))) (i + 1) j = _
    by_cases hj : j = i
    · subst hj
      rw [backFillGo_out e n _ (j + 1) j (by omega)]
      unfold upd
      rw [if_pos rfl]
    · rw [ih _ _ _ (by omega) (by omega)]
      unfold upd
      rw [if_neg hj]

/-- C8: the back-fill pass at loop close rewrites, inside the loop body
range, every break word 39 into an unconditional jump word landing
immediately after the loop and every continue word 96 into a jump landing
on the loop's back edge, touching nothing else; in the concrete
compilation of a loop holding an if whose then-branch breaks and whose
else-branch continues (source `+[('|` backtick `)]`), the unresolved
break flag propagates out of the if to the loop, the break at index 3
becomes a jump of offset 3 whose dispatch moves the pc to 7 (just after
the `]` at 6) and the continue at index 5 becomes a jump of offset 0
whose dispatch moves the pc to the back edge 6. -/
theorem claim8_backfill :
    (∀ (mem : Nat → Nat) (start e j : Nat),
      (start ≤ j → j < e → backFill mem start e j = bfWord e j (mem j))
      ∧ (j < start ∨ e ≤ j → backFill mem start e j = mem j))
    ∧ (compileGo 20 m0 zmem src8 0).map (fun r => (List.range 8).map r.2.1) =
        some [299, 1371, 552, 892, 380, 124, 1373, 64]
    ∧ (dispatch im8 allocT { tcb0 with pc := 3 } m0 1).t.pc = 7
    ∧ (dispatch im8 allocT { tcb0 with pc := 5 } m0 1).t.pc = 6 := by
  refine ⟨?_, by decide, by decide, by decide⟩
  intro mem start e j
  constructor
  · intro h1 h2
    unfold backFill
    exact backFillGo_in e (e - start) mem start j h1 (by omega)
  · intro h
    unfold backFill
    exact backFillGo_out e (e - start) mem start j (by omega)

/-- Witness for C8: the characterization applied inside and outside the
range of a concrete memory. -/
theorem claim8_witness :
    backFill (upd (upd zmem 3 39) 5 96) 2 7 3 = bfWord 7 3 (upd (upd zmem 3 39) 5 96 3)
    ∧ backFill (upd (upd zmem 3 39) 5 96) 2 7 0 = upd (upd zmem 3 39) 5 96 0 :=
  ⟨(claim8_backfill.1 (upd (upd zmem 3 39) 5 96) 2 7 3).1 (by decide) (by decide),
   (claim8_backfill.1 (upd (upd zmem 3 39) 5 96) 2 7 0).2 (Or.inl (by decide))⟩

theorem dispatch_plus (imem : Nat → Nat) (al : Alloc) (t : TCB) (m : Machine) (cost : Nat)
    (h : imem t.pc % 256 = 43) :
    dispatch imem al t m cost =
      ⟨{ t with pc := t.pc + 1 },
       { m with store := writeCell m.store t.cmem t.dp (cellAdd (m.store t.cmem t.dp) (imem t.pc / 256)) },
       DR.cont, cost⟩ := by
  simp only [dispatch, h]
  norm_num

theorem dispatch_dot (imem : Nat → Nat) (al : Alloc) (t : TCB) (m : Machine) (cost : Nat)
    (h : imem t.pc % 256 = 46) :
    dispatch imem al t m cost =
      ⟨{ t with pc := t.pc + 1 },
       { m with output := m.output ++ List.replicate (imem t.pc / 256) (m.store t.cmem t.dp) },
       DR.cont, cost⟩ := by
  simp only [dispatch, h]
  norm_num

theorem createProcess_pList_mem (al2 : Alloc) (m : Machine) (copym : Nat) (npm : Option Nat)
    (nprocs : Option (Nat → Option Nat)) (npc ndp : Nat) (ns : Option (Nat → Nat)) (nsp : Nat) :
    ∀ p, p ∈ (createProcess al2 m copym npm nprocs npc ndp ns nsp).1.pList →
      p ∈ m.pList ∨ p.pmem = npm := by
  intro p hp
  unfold createProcess at hp
  split_ifs at hp <;> try exact Or.inl hp
  simp only [List.mem_append, List.mem_singleton] at hp
  rcases hp with h | rfl
  · exact Or.inl h
  · exact Or.inr rfl

theorem compileGo_pmem :
    ∀ (fuel : Nat) (m : Machine) (mem : Nat → Nat) (inp : List Nat) (cp : Nat)
      (r : Machine × (Nat → Nat) × Nat × List Nat),
      compileGo fuel m mem inp cp = some r →
      ∀ p, p ∈ r.1.pList → p ∈ m.pList ∨ p.pmem = some 0 := by
  intro fuel
  induction fuel with
  | zero => intro m mem inp cp r h; simp [compileGo] at h
  | succ f ih =>
    intro m mem inp cp r h p hp
    simp only [compileGo] at h
    cases hr : rcc (f + 1) mem inp cp ((cp : Int) - 1) false false with
    | none => rw [hr] at h; exact absurd h (by simp)
    | some q =>
      obtain ⟨mem2, inp2, np, bfo, eof⟩ := q
      rw [hr] at h
      dsimp only at h
      by_cases h1 : mem2 (np - 1) = 33
      · rw [if_pos h1] at h
        cases h
        exact createProcess_pList_mem allocT m 0 (some 0) none cp 0 none STACKSIZE p hp
      · rw [if_neg h1] at h
        by_cases h2 : eof = true
        · rw [if_pos h2] at h
          cases h
          exact createProcess_pList_mem allocT m 0 (some 0) none cp 0 none STACKSIZE p hp
        · rw [if_neg h2] at h
          rcases ih _ _ _ _ _ h p hp with h3 | h3
          · exact createProcess_pList_mem allocT m 0 (some 0) none cp 0 none STACKSIZE p h3
          · exact Or.inr h3

/-- C4: every process created by the compile loop is primordial, its
parent segment alias being the single system segment 0; compiling the
two-program source `+@+` creates two such processes whose initial threads
start at instruction indices 0 and 2 (each running on its own private
copy, with the shared system segment reachable through the parent alias
by the segment-swap instruction); and a byte written to a system-segment
cell by any thread whose current segment is the system segment is exactly
the byte another such thread, of any process, reads from that cell and
emits on its next dispatch. -/
theorem claim4_shared_system_segment :
    (∀ (fuel : Nat) (m : Machine) (mem : Nat → Nat) (inp : List Nat) (cp : Nat)
      (r : Machine × (Nat → Nat) × Nat × List Nat),
      compileGo fuel m mem inp cp = some r →
      ∀ p, p ∈ r.1.pList → p ∈ m.pList ∨ p.pmem = some 0)
    ∧ (compileGo 20 m0 zmem src4 0).map
        (fun r => (r.1.pList.map (fun p => (p.pid, p.pmem)),
                   r.1.ready.map (fun u => (u.pc, u.cmem)), r.2.2.1)) =
        some ([(1, some 0), (2, some 0)], [(0, 1), (2, 2)], 4)
    ∧ (∀ (imem1 imem2 : Nat → Nat) (al1 al2 : Alloc) (t1 t2 : TCB) (m : Machine)
        (c1 c2 k : Nat),
        imem1 t1.pc = 43 + k * 256 → imem2 t2.pc = 46 + 1 * 256 →
        t1.cmem = 0 → t2.cmem = 0 → t2.dp = t1.dp →
        (dispatch imem2 al2 t2 (dispatch imem1 al1 t1 m c1).m c2).m.output =
          m.output ++ [cellAdd (m.store 0 t1.dp) k]) := by
  refine ⟨compileGo_pmem, by decide, ?_⟩
  intro imem1 imem2 al1 al2 t1 t2 m c1 c2 k h1 h2 hc1 hc2 hdp
  have h1m : imem1 t1.pc % 256 = 43 := by rw [h1]; try omega
  have h1n : imem1 t1.pc / 256 = k := by rw [h1]; try omega
  have h2m : imem2 t2.pc % 256 = 46 := by rw [h2]
  have h2n : imem2 t2.pc / 256 = 1 := by rw [h2]
  rw [dispatch_plus imem1 al1 t1 m c1 h1m, h1n]
  rw [dispatch_dot imem2 al2 t2 _ c2 h2m, h2n]
  simp only [hc1, hc2, hdp]
  rw [writeCell_get]
  rfl

/-- Witness for C4: a write of 7 to system cell 0 by one thread is emitted
by a second thread of another process on its next dispatch. -/
theorem claim4_witness :
    (dispatch (fun _ => 46 + 1 * 256) allocT { tcb0 with tid := 2 }
        (dispatch (fun _ => 43 + 7 * 256) allocT tcb0 m0 1).m 1).m.output =
      m0.output ++ [cellAdd (m0.store 0 tcb0.dp) 7] :=
  claim4_shared_system_segment.2.2 (fun _ => 43 + 7 * 256) (fun _ => 46 + 1 * 256)
    allocT allocT tcb0 { tcb0 with tid := 2 } m0 1 1 7 rfl rfl rfl rfl rfl

/-- Witness for the amended C2 at a concrete input. -/
theorem claim2_witness :
    (dispatch imemHash allocT tcb0 m0 1).cost = amendedCharge imemHash tcb0 1 :=
  claim2_cost_register imemHash allocT tcb0 m0 1
